import Mathlib

/-!
Shallow embedding of the drift-detection service's core data model and
algorithms (`src/app/...`), together with proofs settling the frozen claims.

Numeric conventions: Python floats are modelled as rationals (`ℚ`); unix
timestamps (Python ints) as `Int`.  Open-ended `evidence` dictionaries are
opaque payloads never inspected by any verified property and are omitted
from the records.  Randomness (`uuid.uuid4()`) is determinized: the raw hex
material is passed in explicitly or drawn from a counter in the store.
-/

namespace Drift

/-- `DriftType` enum from `app/models/drift.py`. -/
inductive DriftType
  | topicEmergence
  | topicAbandonment
  | preferenceReversal
  | intensityShift
  | contextExpansion
  | contextContraction
deriving DecidableEq, Repr

/-- `DriftSeverity` enum from `app/models/drift.py`. -/
inductive DriftSeverity
  | noDrift
  | weakDrift
  | moderateDrift
  | strongDrift
deriving DecidableEq, Repr

/-- Rank of a severity under the ordering none < weak < moderate < strong
(used to state the spec's "severity at least weak"). -/
def DriftSeverity.rank : DriftSeverity → Nat
  | .noDrift => 0
  | .weakDrift => 1
  | .moderateDrift => 2
  | .strongDrift => 3

/-- `DriftSignal` dataclass from `app/models/drift.py` (the opaque
`evidence` dict is omitted; no verified property reads it). -/
structure DriftSignal where
  drift_type : DriftType
  drift_score : ℚ
  affected_targets : List String
  confidence : ℚ
deriving DecidableEq, Repr

/-- `DriftSignal.severity` property: thresholds 0.8 / 0.6 / 0.3 exactly as in
`app/models/drift.py`. -/
def DriftSignal.severity (s : DriftSignal) : DriftSeverity :=
  if s.drift_score ≥ 8/10 then .strongDrift
  else if s.drift_score ≥ 6/10 then .moderateDrift
  else if s.drift_score ≥ 3/10 then .weakDrift
  else .noDrift

/-- `DriftSignal.is_actionable`: true iff severity is MODERATE or STRONG
(`app/models/drift.py` line 93). -/
def DriftSignal.is_actionable (s : DriftSignal) : Bool :=
  s.severity = .moderateDrift || s.severity = .strongDrift

/-- `DriftSignal.__post_init__` validation: returns the constructed signal or
the `ValueError` message, checking `drift_score` then `confidence` exactly as
the Python checks `0.0 <= x <= 1.0`. -/
def mkDriftSignal (ty : DriftType) (score : ℚ) (targets : List String)
    (conf : ℚ) : Except String DriftSignal :=
  if ¬ (0 ≤ score ∧ score ≤ 1) then
    .error "drift_score must be between 0.0 and 1.0"
  else if ¬ (0 ≤ conf ∧ conf ≤ 1) then
    .error "confidence must be between 0.0 and 1.0"
  else
    .ok ⟨ty, score, targets, conf⟩

/-- `DriftEvent` dataclass from `app/models/drift.py` (evidence omitted, as
for `DriftSignal`). -/
structure DriftEvent where
  drift_type : DriftType
  drift_score : ℚ
  confidence : ℚ
  severity : DriftSeverity
  affected_targets : List String
  user_id : String
  reference_window_start : Int
  reference_window_end : Int
  current_window_start : Int
  current_window_end : Int
  detected_at : Int
  drift_event_id : String
  acknowledged_at : Option Int
  behavior_ref_ids : List String
  conflict_ref_ids : List String
deriving DecidableEq, Repr

/-- `DriftEvent.__post_init__` validation (score and confidence bounds; the
enum-from-string coercions are compile-time facts in the typed embedding). -/
def mkDriftEvent (e : DriftEvent) : Except String DriftEvent :=
  if ¬ (0 ≤ e.drift_score ∧ e.drift_score ≤ 1) then
    .error "drift_score must be between 0.0 and 1.0"
  else if ¬ (0 ≤ e.confidence ∧ e.confidence ≤ 1) then
    .error "confidence must be between 0.0 and 1.0"
  else
    .ok e

/-!
Aggregator (`app/core/drift_aggregator.py`).  Signals are tagged with their
position in the input list so that CPython object identity (`id(best_signal)`
in the `processed_signals` set) is modelled faithfully: two structurally equal
signals at different positions are distinct objects.
-/

/-- One step of `defaultdict(list)` grouping: append `x` to the bucket of key
`t`, creating the bucket at the end when `t` is new (Python dicts preserve
insertion order). -/
def addToGroup (g : List (String × List α)) (t : String) (x : α) :
    List (String × List α) :=
  match g with
  | [] => [(t, [x])]
  | (s, xs) :: rest =>
      if s = t then (s, xs ++ [x]) :: rest else (s, xs) :: addToGroup rest t x

/-- Bucket of key `t` in a grouped association list (empty when absent). -/
def groupContent (g : List (String × List α)) (t : String) : List α :=
  ((g.find? (fun p => p.1 = t)).map Prod.snd).getD []

/-- Keys of a grouped association list. -/
def keysOf (g : List (String × List α)) : List String := g.map Prod.fst

/-- Pair each signal with its position (models CPython object identity). -/
def indexFrom (n : Nat) : List DriftSignal → List (Nat × DriftSignal)
  | [] => []
  | s :: ss => (n, s) :: indexFrom (n + 1) ss

/-- Step 1 of `DriftAggregator.aggregate`: group signals by each of their
`affected_targets`; a signal with an empty target list is skipped. -/
def aggGroups (l : List (Nat × DriftSignal)) :
    List (String × List (Nat × DriftSignal)) :=
  l.foldl
    (fun g p =>
      if p.2.affected_targets.isEmpty then g
      else p.2.affected_targets.foldl (fun g2 t => addToGroup g2 t p) g)
    []

/-- First element of a bucket after a stable sort by `drift_score` descending:
the earliest element attaining the maximal score (Python `list.sort` is
stable, so `target_signals[0]` after `sort(reverse=True)` is exactly this). -/
def best1 (x : Nat × DriftSignal) : List (Nat × DriftSignal) → Nat × DriftSignal
  | [] => x
  | y :: ys =>
      if x.2.drift_score ≥ (best1 y ys).2.drift_score then x else best1 y ys

/-- Step 2 of `DriftAggregator.aggregate`: walk the groups in insertion order,
keep the best signal of each bucket, skipping signal objects already emitted
(the `processed_signals` identity set).  An empty bucket (unreachable from the
grouping) is skipped, matching the `continue` on a sort failure. -/
def dedupLoop : List (String × List (Nat × DriftSignal)) → List Nat →
    List (Nat × DriftSignal)
  | [], _ => []
  | (_, []) :: rest, seen => dedupLoop rest seen
  | (_, x :: xs) :: rest, seen =>
      if (best1 x xs).1 ∈ seen then dedupLoop rest seen
      else best1 x xs :: dedupLoop rest ((best1 x xs).1 :: seen)

/-- The deduplicated per-target-maximum signals of an input list (the
`deduplicated` list of `DriftAggregator.aggregate`, with positions). -/
def dedupPairs (l : List DriftSignal) : List (Nat × DriftSignal) :=
  dedupLoop (aggGroups (indexFrom 0 l)) []

/-- Stable insertion for a descending sort by `key` (equal keys keep their
original relative order, as Python's stable `sort(reverse=True)` does). -/
def insertByDesc (key : α → ℚ) (a : α) : List α → List α
  | [] => [a]
  | y :: ys =>
      if key a > key y then a :: y :: ys else y :: insertByDesc key a ys

/-- Stable sort, descending by `key`. -/
def sortByDesc (key : α → ℚ) : List α → List α
  | [] => []
  | x :: xs => insertByDesc key x (sortByDesc key xs)

/-- `DriftAggregator.aggregate` (`app/core/drift_aggregator.py`): group by
target, keep the per-bucket maximum, deduplicate by object identity, filter by
`drift_score >= threshold and is_actionable`, sort by score descending.  The
`isinstance` filtering of non-`DriftSignal` inputs is enforced by typing. -/
def aggregate (θ : ℚ) (signals : List DriftSignal) : List DriftSignal :=
  let act := (dedupPairs signals).filter
    (fun p => decide (θ ≤ p.2.drift_score) && p.2.is_actionable)
  (sortByDesc (fun p => p.2.drift_score) act).map Prod.snd

/-- Claim C1 as stated: the aggregator output is exactly the deduplicated
per-target-maximum signals whose score reaches the configured threshold and
whose severity is at least weak (score at least 0.3). -/
def aggregateClaimC1 (θ : ℚ) (l : List DriftSignal) : Prop :=
  ∀ s, s ∈ aggregate θ l ↔
    (∃ p ∈ dedupPairs l, p.2 = s) ∧ θ ≤ s.drift_score ∧
      1 ≤ s.severity.rank

/-- Claim C3 as stated: for every target `t` covered by some input signal, the
output has at most one signal covering `t`, and any output signal covering `t`
dominates every input signal covering `t`. -/
def aggregateClaimC3 (θ : ℚ) (l : List DriftSignal) : Prop :=
  ∀ t, (∃ s ∈ l, t ∈ s.affected_targets) →
    (aggregate θ l).countP (fun s => decide (t ∈ s.affected_targets)) ≤ 1 ∧
    ∀ s ∈ aggregate θ l, t ∈ s.affected_targets →
      ∀ q ∈ l, t ∈ q.affected_targets → q.drift_score ≤ s.drift_score

/-- Concrete signals for the C1 and C3 counterexamples. -/
def sigWeak : DriftSignal := ⟨.topicEmergence, 1/2, ["x"], 1/2⟩

/-- Multi-target signal covering both x and y with score 0.7. -/
def sigXY : DriftSignal := ⟨.topicEmergence, 7/10, ["x", "y"], 9/10⟩

/-- Single-target signal covering y with score 0.8. -/
def sigY : DriftSignal := ⟨.intensityShift, 8/10, ["y"], 9/10⟩

/-!
Behavior records and snapshots (`app/models/behavior.py`,
`app/models/snapshot.py`).
-/

/-- `BehaviorRecord` dataclass from `app/models/behavior.py`. -/
structure BehaviorRecord where
  user_id : String
  behavior_id : String
  target : String
  intent : String
  context : String
  polarity : String
  credibility : ℚ
  reinforcement_count : Int
  state : String
  created_at : Int
  last_seen_at : Int
  snapshot_updated_at : Int
deriving DecidableEq, Repr

/-- `BehaviorRecord.is_active`. -/
def BehaviorRecord.is_active (b : BehaviorRecord) : Bool := b.state = "ACTIVE"

/-- `ConflictRecord` dataclass from `app/models/behavior.py` (derived flags
`is_polarity_reversal` and `is_target_migration` are not needed by any
claim and are omitted). -/
structure ConflictRecord where
  user_id : String
  conflict_id : String
  behavior_id_1 : String
  behavior_id_2 : String
  conflict_type : String
  resolution_status : String
  old_polarity : Option String
  new_polarity : Option String
  old_target : Option String
  new_target : Option String
  created_at : Int
deriving DecidableEq, Repr

/-- `BehaviorSnapshot` from `app/models/snapshot.py`; the derived
distributions are computed by functions below instead of being cached. -/
structure BehaviorSnapshot where
  user_id : String
  window_start : Int
  window_end : Int
  behaviors : List BehaviorRecord
  conflict_records : List ConflictRecord
  include_superseded : Bool
deriving DecidableEq, Repr

/-- `BehaviorSnapshot._get_relevant_behaviors` (also the filter at the top of
`_compute_distributions`): all behaviors for reference windows, only ACTIVE
ones otherwise. -/
def BehaviorSnapshot.relevantBehaviors (snap : BehaviorSnapshot) :
    List BehaviorRecord :=
  if snap.include_superseded then snap.behaviors
  else snap.behaviors.filter (fun b => b.is_active)

/-- First-occurrence deduplication; models building a Python set from a list
(membership is all any caller relies on). -/
def dedupFirst : List String → List String
  | [] => []
  | x :: xs => x :: (dedupFirst xs).filter (fun y => y ≠ x)

/-- `BehaviorSnapshot.get_targets`. -/
def BehaviorSnapshot.getTargets (snap : BehaviorSnapshot) : List String :=
  dedupFirst (snap.relevantBehaviors.map (fun b => b.target))

/-- `BehaviorSnapshot.get_average_credibility`: mean credibility over the
relevant behaviors with the given target, `0.0` when there are none. -/
def BehaviorSnapshot.getAverageCredibility (snap : BehaviorSnapshot)
    (t : String) : ℚ :=
  let tb := snap.relevantBehaviors.filter (fun b => b.target = t)
  if tb.isEmpty then 0
  else ((tb.map (fun b => b.credibility)).sum) / (tb.length : ℚ)

/-- Python `max(behaviors_list, key=lambda b: b.last_seen_at)`: the FIRST
element attaining the maximal `last_seen_at` (Python `max` keeps the earlier
element on ties). -/
def mostRecent (x : BehaviorRecord) : List BehaviorRecord → BehaviorRecord
  | [] => x
  | y :: ys =>
      if x.last_seen_at ≥ (mostRecent y ys).last_seen_at then x
      else mostRecent y ys

/-- The polarity-by-target map of `_compute_distributions`: group the
relevant behaviors by target (defaultdict in insertion order), then map each
target to the polarity of its most recent behavior. -/
def polarityByTarget (snap : BehaviorSnapshot) : List (String × String) :=
  let groups := snap.relevantBehaviors.foldl
    (fun g b => addToGroup g b.target b) []
  groups.filterMap (fun p =>
    match p.2 with
    | [] => none
    | b :: bs => some (p.1, (mostRecent b bs).polarity))

/-- Dict lookup on an association list with unique keys. -/
def lookupKey (m : List (String × String)) (t : String) : Option String :=
  (m.find? (fun p => p.1 = t)).map Prod.snd

/-- Claim C7 as stated: every target maps to the polarity of its relevant
behavior with maximal `last_seen_at`, ties broken by lexicographically
smallest `behavior_id`. -/
def polarityClaimC7 (snap : BehaviorSnapshot) : Prop :=
  ∀ t p, lookupKey (polarityByTarget snap) t = some p →
    ∃ b ∈ snap.relevantBehaviors, b.target = t ∧ b.polarity = p ∧
      (∀ c ∈ snap.relevantBehaviors, c.target = t →
        c.last_seen_at ≤ b.last_seen_at) ∧
      (∀ c ∈ snap.relevantBehaviors, c.target = t →
        c.last_seen_at = b.last_seen_at → b.behavior_id ≤ c.behavior_id)

/-- Behavior with id "b", POSITIVE polarity, listed first in the C7
counterexample snapshot. -/
def behPosB : BehaviorRecord :=
  ⟨"u", "b", "t", "PREFERENCE", "general", "POSITIVE", 1, 1, "ACTIVE", 0, 10, 0⟩

/-- Behavior with the lexicographically smaller id "a", NEGATIVE polarity,
same `last_seen_at`, listed second. -/
def behNegA : BehaviorRecord :=
  ⟨"u", "a", "t", "PREFERENCE", "general", "NEGATIVE", 1, 1, "ACTIVE", 0, 10, 0⟩

/-- Snapshot exhibiting the C7 tie: two behaviors for target t with equal
`last_seen_at` and different polarities. -/
def snapC7 : BehaviorSnapshot := ⟨"u", 0, 100, [behPosB, behNegA], [], false⟩

/-!
Intensity-shift detector (`app/detectors/intensity_shift.py`).  The Python
iterates the set intersection of the two targets sets in arbitrary order; the
embedding fixes first-occurrence order in the reference snapshot, and every
claim about the detector is per-target, hence order-independent.
-/

/-- `IntensityShiftDetector.detect`: for each target in both windows compare
average credibilities; skip when `delta < delta_threshold`, else emit a
signal with `drift_score = delta` and `confidence = min(ref, cur)`. -/
def intensityDetect (θ : ℚ) (ref cur : BehaviorSnapshot) : List DriftSignal :=
  let common := ref.getTargets.filter (fun t => t ∈ cur.getTargets)
  common.filterMap (fun t =>
    let refCred := ref.getAverageCredibility t
    let curCred := cur.getAverageCredibility t
    let delta := |curCred - refCred|
    if delta < θ then none
    else some ⟨.intensityShift, delta, [t], min refCred curCred⟩)

/-- Claim C6 as stated: at a credibility delta exactly equal to the threshold
the detector emits no signal for that target; strictly above, it emits one
with `drift_score` equal to the delta. -/
def intensityClaimC6 (θ : ℚ) (ref cur : BehaviorSnapshot) : Prop :=
  ∀ t, t ∈ ref.getTargets → t ∈ cur.getTargets →
    (|cur.getAverageCredibility t - ref.getAverageCredibility t| = θ →
      ∀ s ∈ intensityDetect θ ref cur, t ∉ s.affected_targets) ∧
    (|cur.getAverageCredibility t - ref.getAverageCredibility t| > θ →
      ∃ s ∈ intensityDetect θ ref cur, s.affected_targets = [t] ∧
        s.drift_score =
          |cur.getAverageCredibility t - ref.getAverageCredibility t|)

/-- Reference-window snapshot for the C6 boundary example: one behavior for
target vim with credibility 0.25. -/
def refSnapC6 : BehaviorSnapshot :=
  ⟨"u", 0, 50,
    [⟨"u", "b1", "vim", "PREFERENCE", "general", "POSITIVE", 1/4, 1, "ACTIVE",
      10, 10, 0⟩], [], true⟩

/-- Current-window snapshot for the C6 boundary example: one behavior for
target vim with credibility 0.5, so the delta is exactly 0.25. -/
def curSnapC6 : BehaviorSnapshot :=
  ⟨"u", 50, 100,
    [⟨"u", "b2", "vim", "PREFERENCE", "general", "POSITIVE", 1/2, 1, "ACTIVE",
      60, 60, 0⟩], [], false⟩

/-!
The persistent store (the four tables of section 3) plus the process-local
"recently seen event ids" set of the event handler.  `jobCounter` and
`uuidCounter` determinize `uuid.uuid4()`: fresh identifier material is drawn
from a counter, which no verified property inspects beyond its shape.
-/

/-- A row of the `drift_scan_jobs` table (`app/db/repositories/scan_job_repo.py`). -/
structure ScanJob where
  job_id : String
  user_id : String
  trigger_event : String
  status : String
  priority : String
  scheduled_at : Int
  started_at : Option Int
  completed_at : Option Int
  error_message : Option String
deriving DecidableEq, Repr

/-- The relational store plus the handler's processed-event-id cache. -/
structure Store where
  behaviors : List BehaviorRecord
  conflicts : List ConflictRecord
  scanJobs : List ScanJob
  driftEvents : List DriftEvent
  processed : List String
  jobCounter : Nat
  uuidCounter : Nat
deriving DecidableEq, Repr

/-- The configurable thresholds used by the claims
(`app/config.py`, section "Drift Detection Thresholds"). -/
structure Config where
  scan_cooldown_seconds : Int
  min_behaviors_for_drift : Int
  min_days_of_history : Int
  drift_score_threshold : ℚ
  current_window_days : Int
  reference_window_start_days : Int
  reference_window_end_days : Int
deriving DecidableEq, Repr

/-! Behavior repository (`app/db/repositories/behavior_repo.py`). -/

/-- `BehaviorRepository.count_active_behaviors`. -/
def countActiveBehaviors (st : Store) (u : String) : Nat :=
  (st.behaviors.filter (fun b => b.user_id = u && b.state = "ACTIVE")).length

/-- `BehaviorRepository.get_active_behaviors`. -/
def getActiveBehaviors (st : Store) (u : String) : List BehaviorRecord :=
  st.behaviors.filter (fun b => b.user_id = u && b.state = "ACTIVE")

/-- `BehaviorRepository.get_earliest_behavior_date`: `MIN(created_at)` over
all the user's rows, any state. -/
def getEarliestBehaviorDate (st : Store) (u : String) : Option Int :=
  (st.behaviors.filter (fun b => b.user_id = u)).foldl
    (fun acc b =>
      match acc with
      | none => some b.created_at
      | some m => some (min m b.created_at))
    none

/-- `BehaviorRepository.get_behavior`. -/
def getBehavior (st : Store) (u bid : String) : Option BehaviorRecord :=
  st.behaviors.find? (fun b => b.user_id = u && b.behavior_id = bid)

/-- `BehaviorRepository.upsert_behavior`: `INSERT ... ON CONFLICT (user_id,
behavior_id) DO UPDATE` — every field except `created_at` is overwritten on
conflict, and `snapshot_updated_at` is stamped with the wall clock. -/
def upsertBehavior (st : Store) (now : Int) (u bid target intent context
    polarity : String) (credibility : ℚ) (reinforcement_count : Int)
    (state : String) (created_at last_seen_at : Int) : Store :=
  if st.behaviors.any (fun b => b.user_id = u && b.behavior_id = bid) then
    { st with behaviors := st.behaviors.map (fun b =>
        if b.user_id = u && b.behavior_id = bid then
          { b with
            target := target
            intent := intent
            context := context
            polarity := polarity
            credibility := credibility
            reinforcement_count := reinforcement_count
            state := state
            last_seen_at := last_seen_at
            snapshot_updated_at := now }
        else b) }
  else
    { st with behaviors := st.behaviors ++
        [⟨u, bid, target, intent, context, polarity, credibility,
          reinforcement_count, state, created_at, last_seen_at, now⟩] }

/-- `BehaviorRepository.update_behavior` as called by `behavior.reinforced`:
patch credibility, reinforcement count and `last_seen_at`, stamping
`snapshot_updated_at` (an UPDATE matching zero rows is a no-op). -/
def updateBehaviorReinforced (st : Store) (now : Int) (u bid : String)
    (credibility : ℚ) (reinforcement_count last_seen_at : Int) : Store :=
  { st with behaviors := st.behaviors.map (fun b =>
      if b.user_id = u && b.behavior_id = bid then
        { b with
          credibility := credibility
          reinforcement_count := reinforcement_count
          last_seen_at := last_seen_at
          snapshot_updated_at := now }
      else b) }

/-- `BehaviorRepository.update_behavior` as called by `behavior.superseded`:
patch only `state`, stamping `snapshot_updated_at`. -/
def updateBehaviorState (st : Store) (now : Int) (u bid state : String) :
    Store :=
  { st with behaviors := st.behaviors.map (fun b =>
      if b.user_id = u && b.behavior_id = bid then
        { b with
          state := state
          snapshot_updated_at := now }
      else b) }

/-- Modelled from the spec: `ConflictRepository.insert_conflict` is invoked
by the event handler but absent from `conflict_repo.py`; section 4.11 of the
spec ("insert a conflict row", cf. the seed script's plain INSERT into
`conflict_snapshots`) gives a plain row insertion. -/
def insertConflict (st : Store) (c : ConflictRecord) : Store :=
  { st with conflicts := st.conflicts ++ [c] }

/-! Scan-job repository (`app/db/repositories/scan_job_repo.py`). -/

/-- `ScanJobRepository.has_pending_job`: counts rows with
`status = PENDING` only — a RUNNING job does not count. -/
def hasPendingJob (st : Store) (u : String) : Bool :=
  st.scanJobs.any (fun j => j.user_id = u && j.status = "PENDING")

/-- `ScanJobRepository.get_last_completed_scan`: latest `completed_at` among
the user's DONE jobs. -/
def getLastCompletedScan (st : Store) (u : String) : Option Int :=
  ((st.scanJobs.filter (fun j => j.user_id = u && j.status = "DONE")).filterMap
    (fun j => j.completed_at)).foldl
    (fun acc v =>
      match acc with
      | none => some v
      | some m => some (max m v))
    none

/-- `ScanJobRepository.enqueue`: insert a PENDING row with a fresh job id
(uuid4, determinized by the store counter) and `scheduled_at = now()`. -/
def enqueueScanJob (st : Store) (now : Int) (u trigger priority : String) :
    String × Store :=
  let jid := "job-" ++ toString st.jobCounter
  (jid, { st with
    scanJobs := st.scanJobs ++
      [⟨jid, u, trigger, "PENDING", priority, now, none, none, none⟩]
    jobCounter := st.jobCounter + 1 })

/-- `BehaviorEventHandler._maybe_enqueue_scan`: three gates — no PENDING job,
cooldown since the last completed scan (Python truthiness: a zero timestamp
skips the check), and minimum active-behavior count — then enqueue. -/
def maybeEnqueueScan (cfg : Config) (st : Store) (now : Int)
    (u trigger priority : String) : Store :=
  if hasPendingJob st u then st
  else if (match getLastCompletedScan st u with
    | some last => decide (last ≠ 0) && decide (now - last < cfg.scan_cooldown_seconds)
    | none => false) then st
  else if ((getActiveBehaviors st u).length : Int) < cfg.min_behaviors_for_drift
    then st
  else (enqueueScanJob st now u trigger priority).2

/-- Claim C2 as stated: in any state where the user already has a PENDING or
RUNNING job, the scan-enqueue gate does not enqueue (the state is unchanged). -/
def enqueueClaimC2 (cfg : Config) (st : Store) (now : Int)
    (u trigger priority : String) : Prop :=
  (∃ j ∈ st.scanJobs, j.user_id = u ∧
      (j.status = "PENDING" ∨ j.status = "RUNNING")) →
    maybeEnqueueScan cfg st now u trigger priority = st

/-- Config for the C2 counterexample: cooldown 3600 s, one behavior
suffices, no history requirement. -/
def c2cfg : Config := ⟨3600, 1, 0, 3/5, 30, 60, 30⟩

/-- A RUNNING scan job for user u1 (claimed by a worker, not yet finished). -/
def c2job : ScanJob :=
  ⟨"j1", "u1", "behavior.created", "RUNNING", "NORMAL", 50, some 60, none, none⟩

/-- Store for the C2 counterexample: user u1 has one RUNNING job, no PENDING
or DONE job, and one active behavior. -/
def c2st : Store :=
  ⟨[⟨"u1", "b1", "t", "PREFERENCE", "general", "POSITIVE", 1, 1, "ACTIVE",
    0, 0, 0⟩], [], [c2job], [], [], 0, 0⟩

/-! Event handler (`app/consumer/behavior_event_handler.py`). -/

/-- A parsed inbound behavior event: `event_data.get(key)` for each key the
handler reads (absent keys are `none`). -/
structure EventData where
  event_type : Option String
  user_id : Option String
  behavior_id : Option String
  old_behavior_id : Option String
  conflict_id : Option String
  target : Option String
  intent : Option String
  context : Option String
  polarity : Option String
  credibility : Option ℚ
  reinforcement_count : Option Int
  state : Option String
  created_at : Option Int
  last_seen_at : Option Int
  new_reinforcement_count : Option Int
  new_credibility : Option ℚ
  behavior_id_1 : Option String
  behavior_id_2 : Option String
  conflict_type : Option String
  resolution_status : Option String
  old_polarity : Option String
  new_polarity : Option String
  old_target : Option String
  new_target : Option String
deriving DecidableEq, Repr

/-- `_on_behavior_created`: upsert with payload values and defaults, then the
scan gate.  Missing `user_id` or `behavior_id` (absent or empty — Python
truthiness) skips the event. -/
def onBehaviorCreated (cfg : Config) (st : Store) (now : Int)
    (e : EventData) : Store :=
  let u := e.user_id.getD ""
  let bid := e.behavior_id.getD ""
  if u = "" || bid = "" then st
  else
    let created_at := e.created_at.getD now
    let st2 := upsertBehavior st now u bid (e.target.getD "")
      (e.intent.getD "") (e.context.getD "") (e.polarity.getD "NEUTRAL")
      (e.credibility.getD (1/2)) (e.reinforcement_count.getD 1)
      (e.state.getD "ACTIVE") created_at (e.last_seen_at.getD created_at)
    maybeEnqueueScan cfg st2 now u "behavior.created" "NORMAL"

/-- `_on_behavior_reinforced`: read the behavior (absent → log and drop),
apply payload count/credibility or the defaults, update `last_seen_at`, then
the scan gate. -/
def onBehaviorReinforced (cfg : Config) (st : Store) (now : Int)
    (e : EventData) : Store :=
  let u := e.user_id.getD ""
  let bid := e.behavior_id.getD ""
  if u = "" || bid = "" then st
  else
    match getBehavior st u bid with
    | none => st
    | some b =>
        let st2 := updateBehaviorReinforced st now u bid
          (e.new_credibility.getD b.credibility)
          (e.new_reinforcement_count.getD (b.reinforcement_count + 1))
          (e.last_seen_at.getD now)
        maybeEnqueueScan cfg st2 now u "behavior.reinforced" "NORMAL"

/-- `_on_behavior_superseded`: the identifier field is `old_behavior_id`;
set the state to SUPERSEDED, then the scan gate. -/
def onBehaviorSuperseded (cfg : Config) (st : Store) (now : Int)
    (e : EventData) : Store :=
  let u := e.user_id.getD ""
  let bid := e.old_behavior_id.getD ""
  if u = "" || bid = "" then st
  else
    maybeEnqueueScan cfg (updateBehaviorState st now u bid "SUPERSEDED") now u
      "behavior.superseded" "NORMAL"

/-- `_on_conflict_resolved`: insert the conflict row, then the scan gate at
HIGH priority. -/
def onConflictResolved (cfg : Config) (st : Store) (now : Int)
    (e : EventData) : Store :=
  let u := e.user_id.getD ""
  let cid := e.conflict_id.getD ""
  if u = "" || cid = "" then st
  else
    maybeEnqueueScan cfg
      (insertConflict st
        ⟨u, cid, e.behavior_id_1.getD "", e.behavior_id_2.getD "",
          e.conflict_type.getD "UNKNOWN", e.resolution_status.getD "UNRESOLVED",
          e.old_polarity, e.new_polarity, e.old_target, e.new_target,
          e.created_at.getD now⟩)
      now u "behavior.conflict.resolved" "HIGH"

/-- `_mark_processed`: when the cache holds at least 10000 ids, drop the
oldest half (Python keeps `list(set)[cap // 2:]`; the list order is the
determinization of the set's arbitrary order), then add the id. -/
def markProcessed (st : Store) (eid : String) : Store :=
  let kept := if st.processed.length ≥ 10000
    then st.processed.drop (10000 / 2)
    else st.processed
  { st with processed := eid :: kept }

/-- `BehaviorEventHandler.handle_event`: idempotency check on the processed
cache, dispatch on `event_type` (missing/empty type and unknown types are
dropped without marking), and mark processed after a successful dispatch —
also when the payload lacked required fields. -/
def handleEvent (cfg : Config) (st : Store) (now : Int) (eid : String)
    (e : EventData) : Store :=
  if eid ∈ st.processed then st
  else if e.event_type.getD "" = "" then st
  else if e.event_type.getD "" = "behavior.created" then
    markProcessed (onBehaviorCreated cfg st now e) eid
  else if e.event_type.getD "" = "behavior.reinforced" then
    markProcessed (onBehaviorReinforced cfg st now e) eid
  else if e.event_type.getD "" = "behavior.superseded" then
    markProcessed (onBehaviorSuperseded cfg st now e) eid
  else if e.event_type.getD "" = "behavior.conflict.resolved" then
    markProcessed (onConflictResolved cfg st now e) eid
  else st

/-- A concrete behavior.created event for the C5 witness. -/
def c5ev : EventData :=
  ⟨some "behavior.created", some "u1", some "b9", none, none, some "rust",
    some "PREFERENCE", some "general", some "POSITIVE", some 1, some 1,
    some "ACTIVE", some 5, some 5, none, none, none, none, none, none, none,
    none, none, none⟩

/-! Drift-event repository (`app/db/repositories/drift_event_repo.py`). -/

/-- The canonical 8-4-4-4-12 dashed text form of a UUID; `str(uuid.uuid4())`,
the default `drift_event_id`, always has this shape. -/
def uuid4Canonical (hex : List Char) : List Char :=
  hex.take 8 ++ '-' :: ((hex.drop 8).take 4 ++ '-' ::
    ((hex.drop 12).take 4 ++ '-' :: ((hex.drop 16).take 4 ++ '-' ::
      hex.drop 20)))

/-- The uuid4 placeholder used as default id at event creation
(`field(default_factory=lambda: str(uuid.uuid4()))`, determinized). -/
def placeholderUuid : String := String.mk (uuid4Canonical (List.replicate 32 '0'))

/-- Whether a character is a hexadecimal digit. -/
def isHexDigitChar (c : Char) : Bool :=
  c.isDigit || (decide ('a' ≤ c) && decide (c ≤ 'f')) ||
    (decide ('A' ≤ c) && decide (c ≤ 'F'))

/-- Hex digit characters. -/
def hexChar (n : Nat) : Char :=
  if n < 10 then Char.ofNat (48 + n) else Char.ofNat (87 + n)

/-- 32 hex characters derived from a counter: the determinized
`uuid.uuid4().hex`. -/
def hexOf32 (n : Nat) : List Char :=
  (List.range 32).map (fun i => hexChar (n / 16 ^ i % 16))

/-- `DriftEventRepository.insert`: an id that is empty or contains a dash
(every default uuid4 id does) is replaced by `"drift_" + uuid4().hex[:12]`
before the row is written; the rewritten event is the persisted row and the
new id is returned. -/
def insertDriftEvent (hex : List Char) (ev : DriftEvent) (st : Store) :
    String × Store :=
  let newId :=
    if ev.drift_event_id.data.isEmpty || ev.drift_event_id.data.contains '-'
    then String.mk ("drift_".data ++ hex.take 12)
    else ev.drift_event_id
  (newId, { st with driftEvents := st.driftEvents ++
    [{ ev with drift_event_id := newId }] })

/-- One step of the SQL `MAX(detected_at) ... WHERE user_id = u` aggregate. -/
def latestFoldStep (u : String) (acc : Option Int) (ev : DriftEvent) :
    Option Int :=
  if ev.user_id = u then
    some (match acc with
      | none => ev.detected_at
      | some m => max m ev.detected_at)
  else acc

/-- `DriftEventRepository.get_latest_detection_time`: `MAX(detected_at)`
over the user's drift events. -/
def latestDetectionTime (st : Store) (u : String) : Option Int :=
  st.driftEvents.foldl (latestFoldStep u) none

/-! Snapshot builder and orchestrator (`app/core/snapshot_builder.py`,
`app/core/drift_detector.py`). -/

/-- Stable ascending insertion by `created_at` (the window query's
`ORDER BY created_at ASC`; ties keep store order as a determinization). -/
def insertByCreatedAt (b : BehaviorRecord) :
    List BehaviorRecord → List BehaviorRecord
  | [] => [b]
  | y :: ys =>
      if b.created_at < y.created_at then b :: y :: ys
      else y :: insertByCreatedAt b ys

/-- Stable sort by `created_at` ascending. -/
def sortByCreatedAt : List BehaviorRecord → List BehaviorRecord
  | [] => []
  | x :: xs => insertByCreatedAt x (sortByCreatedAt xs)

/-- `BehaviorRepository.get_behaviors_in_window`, as the method itself reads:
the user's ACTIVE rows with `created_at BETWEEN start AND end`, ordered by
`created_at`.  Its signature is `(user_id, start_ts, end_ts)` — it accepts no
`active_only` parameter, so the keyword call `SnapshotBuilder.build_snapshot`
makes never reaches this query (see `getBehaviorsInWindowCall`). -/
def getBehaviorsInWindow (st : Store) (u : String) (startTs endTs : Int) :
    List BehaviorRecord :=
  sortByCreatedAt (st.behaviors.filter (fun b =>
    b.user_id = u && startTs ≤ b.created_at && b.created_at ≤ endTs &&
      b.state = "ACTIVE"))

/-- The call `build_snapshot` actually makes:
`get_behaviors_in_window(user_id, start_ts, end_ts, active_only=active_only)`.
The method has no `active_only` parameter, so the call raises `TypeError`
before any row is read; the surrounding `except Exception` re-raises it as
`RuntimeError` (`snapshot_builder.py`). Modelled as the failure value. -/
def getBehaviorsInWindowCall (_st : Store) (_u : String)
    (_startTs _endTs : Int) (_activeOnly : Bool) :
    Option (List BehaviorRecord) :=
  none

/-- `ConflictRepository.get_conflicts_in_window`. -/
def getConflictsInWindow (st : Store) (u : String) (startTs endTs : Int) :
    List ConflictRecord :=
  st.conflicts.filter (fun c =>
    c.user_id = u && startTs ≤ c.created_at && c.created_at ≤ endTs)

/-- `SnapshotBuilder.build_snapshot`: a degenerate window (start ≥ end)
raises `ValueError`; otherwise the behavior query is issued with the
unsupported `active_only` keyword and raises (`TypeError` wrapped as
`RuntimeError`), so no snapshot is ever returned.  The `some` branch spells
out the snapshot the dead tail of the function would build
(`include_superseded = not active_only`). -/
def buildSnapshot (st : Store) (u : String) (ws we : Int)
    (activeOnly : Bool) : Option BehaviorSnapshot :=
  if ws ≥ we then none
  else (getBehaviorsInWindowCall st u ws we activeOnly).map (fun behaviors =>
    ⟨u, ws, we, behaviors, getConflictsInWindow st u ws we, !activeOnly⟩)

/-- `SnapshotBuilder.build_reference_and_current`: reference =
`[now - S·86400, now - E·86400]` with superseded included, built first, then
current = `[now - C·86400, now]` actives only; a failure of either build
(every build fails in the source, see `buildSnapshot`) propagates to the
orchestrator, which turns it into an empty result. -/
def buildReferenceAndCurrent (cfg : Config) (st : Store) (now : Int)
    (u : String) : Option (BehaviorSnapshot × BehaviorSnapshot) :=
  let curStart := now - cfg.current_window_days * 86400
  let refStart := now - cfg.reference_window_start_days * 86400
  let refEnd := now - cfg.reference_window_end_days * 86400
  match buildSnapshot st u refStart refEnd false with
  | none => none
  | some ref =>
      match buildSnapshot st u curStart now true with
      | none => none
      | some cur => some (ref, cur)

/-- `SnapshotBuilder.validate_sufficient_data`: active-behavior count and
days of history (float division in the source, exact division here). -/
def validateSufficientData (cfg : Config) (st : Store) (now : Int)
    (u : String) : Bool :=
  if ((countActiveBehaviors st u : Int)) < cfg.min_behaviors_for_drift then
    false
  else
    match getEarliestBehaviorDate st u with
    | none => false
    | some earliest =>
        ¬ (((now - earliest : Int) : ℚ) / 86400 <
          (cfg.min_days_of_history : ℚ))

/-- `DriftDetector._preflight_checks`: sufficient data, then the cooldown
gate (`if last_detection:` is Python truthiness — a zero timestamp skips the
gate). -/
def preflightChecks (cfg : Config) (st : Store) (now : Int) (u : String) :
    Bool :=
  validateSufficientData cfg st now u &&
    (match latestDetectionTime st u with
     | none => true
     | some last =>
         if last = 0 then true
         else decide (¬ (now - last < cfg.scan_cooldown_seconds)))

/-- `DriftEvent.from_signal`: copy the signal fields, fill user, windows and
detection time; the default id is a fresh uuid4 (determinized placeholder —
`DriftEventRepository.insert` replaces any dash-containing id anyway). -/
def DriftEvent.from_signal (s : DriftSignal) (u : String)
    (rws rwe cws cwe det : Int) : DriftEvent :=
  ⟨s.drift_type, s.drift_score, s.confidence, s.severity, s.affected_targets,
    u, rws, rwe, cws, cwe, det, placeholderUuid, none, [], []⟩

/-- `DriftDetector._persist_events`: insert each event in order, drawing the
determinized uuid4 hex material from the store counter. -/
def persistEvents (events : List DriftEvent) (st : Store) : Store :=
  events.foldl
    (fun acc ev =>
      (insertDriftEvent (hexOf32 acc.uuidCounter) ev
        { acc with uuidCounter := acc.uuidCounter + 1 }).2)
    st

/-- `DriftDetector.detect_drift`: reject empty user ids (`ValueError`,
modelled as `none`), run the pre-flight gates, build snapshots, run the
detector collection in order, aggregate, materialize events and persist.
The five detectors are passed as the ordered collection the orchestrator
iterates.  Because `buildSnapshot` always fails in the source (the
`RuntimeError` is caught and turned into an empty result), every branch
past the snapshot step is dead code, embedded here with the same structure
as the source's. -/
def detectDrift (cfg : Config)
    (dets : List (BehaviorSnapshot → BehaviorSnapshot → List DriftSignal))
    (st : Store) (now : Int) (u0 : String) :
    Option (List DriftEvent × Store) :=
  if u0.trim = "" then none
  else
    let u := u0.trim
    if preflightChecks cfg st now u then
      match buildReferenceAndCurrent cfg st now u with
      | none => some ([], st)
      | some (ref, cur) =>
          let signals := dets.foldl (fun acc d => acc ++ d ref cur) []
          if signals.isEmpty then some ([], st)
          else
            let act := aggregate cfg.drift_score_threshold signals
            if act.isEmpty then some ([], st)
            else
              let events := act.map (fun s =>
                DriftEvent.from_signal s u ref.window_start ref.window_end
                  cur.window_start cur.window_end now)
              some (events, persistEvents events st)
    else some ([], st)

/-! HTTP route `POST /detect/user_id` (`api/routes.py`). -/

/-- `detect_drift` route: 404 when the user has no active behaviors, 500 when
the orchestrator raises, otherwise 200 with whatever event list the
orchestrator returned — cooldown and insufficient data yield an empty list,
not an error status. -/
def detectRoute (cfg : Config)
    (dets : List (BehaviorSnapshot → BehaviorSnapshot → List DriftSignal))
    (st : Store) (now : Int) (u : String) : Int × Option (List DriftEvent) :=
  if countActiveBehaviors st u = 0 then (404, none)
  else
    match detectDrift cfg dets st now u with
    | none => (500, none)
    | some (evs, _) => (200, some evs)

/-- Config for the C4/C8 concrete runs: cooldown 3600 s, one behavior and no
history minimum, threshold 0.6, standard 30/60/30 windows. -/
def c4cfg : Config := ⟨3600, 1, 0, 3/5, 30, 60, 30⟩

/-- A detector that always reports one strong intensity signal for target x
(used to exercise the orchestrator with a non-empty result). -/
def constDetector (_ref _cur : BehaviorSnapshot) : List DriftSignal :=
  [⟨.intensityShift, 9/10, ["x"], 9/10⟩]

/-- The empty store (used by the C4 witness: both calls complete successfully
but the pre-flight data gate yields an empty result each time). -/
def c4stEmpty : Store := ⟨[], [], [], [], [], 0, 0⟩

/-- Store for the C8 failing input: user u1 with sufficient data and a drift
event detected 10 seconds before the request — the cooldown is in effect. -/
def c8st : Store :=
  ⟨[⟨"u1", "b1", "x", "PREFERENCE", "general", "POSITIVE", 1, 1, "ACTIVE",
    0, 0, 0⟩], [], [],
    [⟨.intensityShift, 9/10, 9/10, .strongDrift, ["x"], "u1", 0, 0, 0, 0,
      999990, "drift_aaaaaaaaaaaa", none, [], []⟩], [], 0, 0⟩

/-- A PENDING scan job for user u1 (for the C2 witness). -/
def c2jobPending : ScanJob :=
  ⟨"j2", "u1", "behavior.created", "PENDING", "NORMAL", 50, none, none, none⟩

/-- Store in which user u1 already has a PENDING job. -/
def c2stPending : Store := ⟨[], [], [c2jobPending], [], [], 0, 0⟩

/-- Store whose processed-id cache already holds e1 (for the C5 witness). -/
def c5stSeen : Store := ⟨[], [], [], [], ["e1"], 0, 0⟩

/-- Event with an empty caller-supplied id, for the C10 witness. -/
def c10ev : DriftEvent :=
  ⟨.intensityShift, 1, 1, .strongDrift, ["x"], "u1", 0, 0, 0, 0, 5, "", none,
    [], []⟩

end Drift

namespace Drift

/-- Claim C9 (implicit): a `DriftSignal` or `DriftEvent` that passes the
`__post_init__` validation has `drift_score` and `confidence` in `[0,1]`,
and construction with an out-of-range score or confidence yields the
`ValueError` branch instead of a value. -/
theorem c9_construction_bounds
    (ty : DriftType) (score conf : ℚ) (targets : List String) (e : DriftEvent) :
    (∀ s, mkDriftSignal ty score targets conf = .ok s →
        0 ≤ s.drift_score ∧ s.drift_score ≤ 1 ∧ 0 ≤ s.confidence ∧ s.confidence ≤ 1) ∧
    (¬ (0 ≤ score ∧ score ≤ 1 ∧ 0 ≤ conf ∧ conf ≤ 1) →
        ∃ msg, mkDriftSignal ty score targets conf = .error msg) ∧
    (∀ e', mkDriftEvent e = .ok e' →
        0 ≤ e'.drift_score ∧ e'.drift_score ≤ 1 ∧ 0 ≤ e'.confidence ∧ e'.confidence ≤ 1) ∧
    (¬ (0 ≤ e.drift_score ∧ e.drift_score ≤ 1 ∧ 0 ≤ e.confidence ∧ e.confidence ≤ 1) →
        ∃ msg, mkDriftEvent e = .error msg) := by
  refine ⟨?_, ?_, ?_, ?_⟩
  · intro s hs
    unfold mkDriftSignal at hs
    split at hs
    · exact absurd hs (by simp)
    · split at hs
      · exact absurd hs (by simp)
      · rename_i h1 h2
        rw [not_not] at h1 h2
        cases hs
        exact ⟨h1.1, h1.2, h2.1, h2.2⟩
  · intro h
    unfold mkDriftSignal
    by_cases h1 : 0 ≤ score ∧ score ≤ 1
    · by_cases h2 : 0 ≤ conf ∧ conf ≤ 1
      · exact absurd ⟨h1.1, h1.2, h2.1, h2.2⟩ h
      · exact ⟨_, by rw [if_neg (not_not.mpr h1), if_pos h2]⟩
    · exact ⟨_, by rw [if_pos h1]⟩
  · intro e' he
    unfold mkDriftEvent at he
    split at he
    · exact absurd he (by simp)
    · split at he
      · exact absurd he (by simp)
      · rename_i h1 h2
        rw [not_not] at h1 h2
        cases he
        exact ⟨h1.1, h1.2, h2.1, h2.2⟩
  · intro h
    unfold mkDriftEvent
    by_cases h1 : 0 ≤ e.drift_score ∧ e.drift_score ≤ 1
    · by_cases h2 : 0 ≤ e.confidence ∧ e.confidence ≤ 1
      · exact absurd ⟨h1.1, h1.2, h2.1, h2.2⟩ h
      · exact ⟨_, by rw [if_neg (not_not.mpr h1), if_pos h2]⟩
    · exact ⟨_, by rw [if_pos h1]⟩

/-- Witness for C9 at a concrete in-range and a concrete out-of-range input. -/
theorem c9_construction_bounds_witness :
    (∀ s, mkDriftSignal .intensityShift (1/2) ["vim"] (1/2) = .ok s →
        0 ≤ s.drift_score ∧ s.drift_score ≤ 1 ∧ 0 ≤ s.confidence ∧ s.confidence ≤ 1) ∧
    (∃ msg, mkDriftSignal .intensityShift (3/2) ["vim"] (1/2) = .error msg) := by
  constructor
  · exact (c9_construction_bounds .intensityShift (1/2) (1/2) ["vim"]
      ⟨.intensityShift, 1/2, 1/2, .weakDrift, ["vim"], "u", 0, 0, 0, 0, 0, "", none, [], []⟩).1
  · exact (c9_construction_bounds .intensityShift (3/2) (1/2) ["vim"]
      ⟨.intensityShift, 1/2, 1/2, .weakDrift, ["vim"], "u", 0, 0, 0, 0, 0, "", none, [], []⟩).2.1
      (by norm_num)

/-! Lemmas about the grouping primitives. -/

theorem groupContent_nil (t : String) : groupContent ([] : List (String × List α)) t = [] := rfl

theorem groupContent_cons (s : String) (xs : List α)
    (rest : List (String × List α)) (t : String) :
    groupContent ((s, xs) :: rest) t =
      if s = t then xs else groupContent rest t := by
  unfold groupContent
  by_cases h : s = t
  · rw [List.find?_cons_of_pos _ (by simpa using h), if_pos h]
    rfl
  · rw [List.find?_cons_of_neg _ (by simpa using h), if_neg h]

theorem groupContent_addToGroup (g : List (String × List α)) (t t' : String) (x : α) :
    groupContent (addToGroup g t x) t' =
      if t' = t then groupContent g t' ++ [x] else groupContent g t' := by
  induction g with
  | nil =>
      show groupContent [(t, [x])] t' = _
      rw [groupContent_cons, groupContent_nil]
      by_cases h : t' = t
      · rw [if_pos h.symm, if_pos h]
        rfl
      · rw [if_neg (fun hh => h hh.symm), if_neg h]
  | cons hd rest ih =>
      obtain ⟨s, xs⟩ := hd
      simp only [addToGroup]
      by_cases hst : s = t
      · rw [if_pos hst]
        subst hst
        rw [groupContent_cons, groupContent_cons]
        by_cases h : s = t'
        · rw [if_pos h, if_pos h, if_pos h.symm]
        · rw [if_neg h, if_neg h, if_neg (fun hh => h hh.symm)]
      · rw [if_neg hst]
        rw [groupContent_cons, groupContent_cons]
        by_cases h : s = t'
        · rw [if_pos h, if_pos h, if_neg (fun hh : t' = t => hst (h.trans hh))]
        · rw [if_neg h, if_neg h, ih]

theorem keysOf_cons (s : String) (xs : List α) (rest : List (String × List α)) :
    keysOf ((s, xs) :: rest) = s :: keysOf rest := rfl

theorem keysOf_addToGroup (g : List (String × List α)) (t : String) (x : α) :
    keysOf (addToGroup g t x) =
      if t ∈ keysOf g then keysOf g else keysOf g ++ [t] := by
  induction g with
  | nil => simp [addToGroup, keysOf]
  | cons hd rest ih =>
      obtain ⟨s, xs⟩ := hd
      simp only [addToGroup]
      by_cases hst : s = t
      · rw [if_pos hst]
        subst hst
        rw [keysOf_cons, keysOf_cons]
        rw [if_pos (List.mem_cons_self s _)]
      · rw [if_neg hst]
        rw [keysOf_cons, keysOf_cons, ih]
        by_cases hm : t ∈ keysOf rest
        · rw [if_pos hm, if_pos (List.mem_cons_of_mem _ hm)]
        · rw [if_neg hm, if_neg (by
            intro hc
            rcases List.mem_cons.mp hc with hc | hc
            · exact hst hc.symm
            · exact hm hc)]
          rfl

theorem keysOf_addToGroup_nodup (g : List (String × List α)) (t : String) (x : α)
    (h : (keysOf g).Nodup) : (keysOf (addToGroup g t x)).Nodup := by
  rw [keysOf_addToGroup]
  by_cases hm : t ∈ keysOf g
  · rwa [if_pos hm]
  · rw [if_neg hm]
    rw [List.nodup_append]
    exact ⟨h, List.nodup_singleton t, by simpa using hm⟩

theorem mem_groups_content (g : List (String × List α)) (t : String)
    (grp : List α) (hnd : (keysOf g).Nodup) (hmem : (t, grp) ∈ g) :
    grp = groupContent g t := by
  induction g with
  | nil => cases hmem
  | cons hd rest ih =>
      obtain ⟨s, xs⟩ := hd
      rw [keysOf_cons, List.nodup_cons] at hnd
      rcases List.mem_cons.mp hmem with heq | htl
      · injection heq with h1 h2
        subst h1; subst h2
        rw [groupContent_cons, if_pos rfl]
      · have hs_ne : s ≠ t := by
          intro h
          subst h
          exact hnd.1 (by
            simpa [keysOf] using List.mem_map_of_mem Prod.fst htl)
        rw [groupContent_cons, if_neg hs_ne]
        exact ih hnd.2 htl

theorem content_pair_mem (g : List (String × List α)) (t : String)
    (h : groupContent g t ≠ []) : (t, groupContent g t) ∈ g := by
  induction g with
  | nil => exact absurd (groupContent_nil t) h
  | cons hd rest ih =>
      obtain ⟨s, xs⟩ := hd
      by_cases hs : s = t
      · subst hs
        rw [groupContent_cons, if_pos rfl]
        exact List.mem_cons_self _ _
      · rw [groupContent_cons, if_neg hs] at h ⊢
        exact List.mem_cons_of_mem _ (ih h)

/-! Lemmas about position tagging. -/

theorem indexFrom_ge (n : Nat) (l : List DriftSignal) (p : Nat × DriftSignal)
    (h : p ∈ indexFrom n l) : n ≤ p.1 := by
  induction l generalizing n with
  | nil => cases h
  | cons x xs ih =>
      rcases List.mem_cons.mp h with heq | htl
      · subst heq; exact le_refl _
      · exact le_trans (Nat.le_succ n) (ih (n + 1) htl)

theorem indexFrom_fst_inj (n : Nat) (l : List DriftSignal)
    (p q : Nat × DriftSignal) (hp : p ∈ indexFrom n l) (hq : q ∈ indexFrom n l)
    (h : p.1 = q.1) : p = q := by
  induction l generalizing n with
  | nil => cases hp
  | cons x xs ih =>
      rcases List.mem_cons.mp hp with hpe | hpt <;>
        rcases List.mem_cons.mp hq with hqe | hqt
      · rw [hpe, hqe]
      · subst hpe
        have := indexFrom_ge (n + 1) xs q hqt
        omega
      · subst hqe
        have := indexFrom_ge (n + 1) xs p hpt
        omega
      · exact ih (n + 1) hpt hqt

theorem indexFrom_snd_mem (n : Nat) (l : List DriftSignal) (p : Nat × DriftSignal)
    (h : p ∈ indexFrom n l) : p.2 ∈ l := by
  induction l generalizing n with
  | nil => cases h
  | cons x xs ih =>
      rcases List.mem_cons.mp h with heq | htl
      · subst heq; exact List.mem_cons_self _ _
      · exact List.mem_cons_of_mem _ (ih (n + 1) htl)

theorem indexFrom_exists (n : Nat) (l : List DriftSignal) (s : DriftSignal)
    (h : s ∈ l) : ∃ i, (i, s) ∈ indexFrom n l := by
  induction l generalizing n with
  | nil => cases h
  | cons x xs ih =>
      rcases List.mem_cons.mp h with heq | htl
      · exact ⟨n, by simp [indexFrom, heq]⟩
      · obtain ⟨i, hi⟩ := ih (n + 1) htl
        exact ⟨i, List.mem_cons_of_mem _ hi⟩

/-! Lemmas about the aggregator grouping. -/

theorem mem_content_targets_foldl (p q : Nat × DriftSignal) (ts : List String)
    (g : List (String × List (Nat × DriftSignal))) (t : String) :
    q ∈ groupContent (ts.foldl (fun g2 t2 => addToGroup g2 t2 p) g) t ↔
      q ∈ groupContent g t ∨ (q = p ∧ t ∈ ts) := by
  induction ts generalizing g with
  | nil => simp
  | cons t0 ts ih =>
      simp only [List.foldl_cons]
      rw [ih, groupContent_addToGroup]
      by_cases h : t = t0
      · rw [if_pos h]
        subst h
        simp only [List.mem_cons]
        constructor
        · rintro (hq | ⟨rfl, hts⟩)
          · rcases List.mem_append.mp hq with hq | hq
            · exact Or.inl hq
            · exact Or.inr ⟨by simp_all, by simp⟩
          · exact Or.inr ⟨rfl, by simp [hts]⟩
        · rintro (hq | ⟨rfl, ht | hts⟩)
          · exact Or.inl (List.mem_append_left _ hq)
          · exact Or.inl (List.mem_append_right _ (by simp))
          · exact Or.inr ⟨rfl, hts⟩
      · rw [if_neg h]
        simp [List.mem_cons, h]

theorem keysOf_targets_foldl_nodup (p : Nat × DriftSignal) (ts : List String)
    (g : List (String × List (Nat × DriftSignal)))
    (h : (keysOf g).Nodup) :
    (keysOf (ts.foldl (fun g2 t2 => addToGroup g2 t2 p) g)).Nodup := by
  induction ts generalizing g with
  | nil => exact h
  | cons t0 ts ih => exact ih _ (keysOf_addToGroup_nodup g t0 p h)

theorem aggGroups_foldl_mem (l : List (Nat × DriftSignal))
    (g : List (String × List (Nat × DriftSignal))) (q : Nat × DriftSignal)
    (t : String) :
    q ∈ groupContent
        (l.foldl
          (fun g2 p =>
            if p.2.affected_targets.isEmpty then g2
            else p.2.affected_targets.foldl (fun g3 t2 => addToGroup g3 t2 p) g2)
          g) t ↔
      q ∈ groupContent g t ∨ (q ∈ l ∧ t ∈ q.2.affected_targets) := by
  induction l generalizing g with
  | nil => simp
  | cons p0 rest ih =>
      simp only [List.foldl_cons]
      by_cases hemp : p0.2.affected_targets.isEmpty
      · have hnt : ¬ t ∈ p0.2.affected_targets := by
          intro hmem
          rw [List.isEmpty_iff] at hemp
          simp [hemp] at hmem
        rw [if_pos hemp, ih]
        constructor
        · rintro (h | ⟨h1, h2⟩)
          · exact Or.inl h
          · exact Or.inr ⟨List.mem_cons_of_mem _ h1, h2⟩
        · rintro (h | ⟨h1, h2⟩)
          · exact Or.inl h
          · rcases List.mem_cons.mp h1 with rfl | h1
            · exact absurd h2 hnt
            · exact Or.inr ⟨h1, h2⟩
      · rw [if_neg hemp, ih, mem_content_targets_foldl]
        constructor
        · rintro ((h | ⟨rfl, h2⟩) | ⟨h1, h2⟩)
          · exact Or.inl h
          · exact Or.inr ⟨List.mem_cons_self _ _, h2⟩
          · exact Or.inr ⟨List.mem_cons_of_mem _ h1, h2⟩
        · rintro (h | ⟨h1, h2⟩)
          · exact Or.inl (Or.inl h)
          · rcases List.mem_cons.mp h1 with rfl | h1
            · exact Or.inl (Or.inr ⟨rfl, h2⟩)
            · exact Or.inr ⟨h1, h2⟩

theorem mem_aggGroups_content (l : List (Nat × DriftSignal))
    (q : Nat × DriftSignal) (t : String) :
    q ∈ groupContent (aggGroups l) t ↔ q ∈ l ∧ t ∈ q.2.affected_targets := by
  unfold aggGroups
  rw [aggGroups_foldl_mem]
  simp [groupContent]

theorem aggGroups_foldl_nodup (l : List (Nat × DriftSignal))
    (g : List (String × List (Nat × DriftSignal))) (h : (keysOf g).Nodup) :
    (keysOf
      (l.foldl
        (fun g2 p =>
          if p.2.affected_targets.isEmpty then g2
          else p.2.affected_targets.foldl (fun g3 t2 => addToGroup g3 t2 p) g2)
        g)).Nodup := by
  induction l generalizing g with
  | nil => exact h
  | cons p0 rest ih =>
      simp only [List.foldl_cons]
      by_cases hemp : p0.2.affected_targets.isEmpty
      · simp only [hemp, if_true]
        exact ih _ h
      · simp only [hemp, if_false, Bool.false_eq_true]
        exact ih _ (keysOf_targets_foldl_nodup p0 _ g h)

theorem aggGroups_nodup (l : List (Nat × DriftSignal)) :
    (keysOf (aggGroups l)).Nodup := by
  unfold aggGroups
  exact aggGroups_foldl_nodup l [] (by simp [keysOf])

/-! Lemmas about the per-bucket maximum and the dedup walk. -/

theorem best1_mem (x : Nat × DriftSignal) (xs : List (Nat × DriftSignal)) :
    best1 x xs ∈ x :: xs := by
  induction xs generalizing x with
  | nil => simp [best1]
  | cons y ys ih =>
      simp only [best1]
      by_cases h : x.2.drift_score ≥ (best1 y ys).2.drift_score
      · rw [if_pos h]
        exact List.mem_cons_self _ _
      · rw [if_neg h]
        exact List.mem_cons_of_mem _ (ih y)

theorem best1_max (x : Nat × DriftSignal) (xs : List (Nat × DriftSignal))
    (q : Nat × DriftSignal) (hq : q ∈ x :: xs) :
    q.2.drift_score ≤ (best1 x xs).2.drift_score := by
  induction xs generalizing x with
  | nil =>
      rcases List.mem_cons.mp hq with h | h
      · subst h; simp [best1]
      · cases h
  | cons y ys ih =>
      simp only [best1]
      by_cases h : x.2.drift_score ≥ (best1 y ys).2.drift_score
      · rcases List.mem_cons.mp hq with he | ht
        · subst he; simp [h]
        · exact le_trans (ih y ht) (by simp [h])
      · push_neg at h
        rw [if_neg (not_le.mpr h)]
        rcases List.mem_cons.mp hq with he | ht
        · subst he
          exact le_of_lt h
        · exact ih y ht

theorem dedupLoop_sound (gs : List (String × List (Nat × DriftSignal)))
    (seen : List Nat) (p : Nat × DriftSignal) (hp : p ∈ dedupLoop gs seen) :
    ∃ t x xs, (t, x :: xs) ∈ gs ∧ best1 x xs = p := by
  induction gs generalizing seen with
  | nil => cases hp
  | cons hd rest ih =>
      obtain ⟨t0, grp⟩ := hd
      cases grp with
      | nil =>
          obtain ⟨t, x, xs, h1, h2⟩ := ih seen hp
          exact ⟨t, x, xs, List.mem_cons_of_mem _ h1, h2⟩
      | cons x xs =>
          simp only [dedupLoop] at hp
          by_cases hseen : (best1 x xs).1 ∈ seen
          · rw [if_pos hseen] at hp
            obtain ⟨t, x2, xs2, h1, h2⟩ := ih seen hp
            exact ⟨t, x2, xs2, List.mem_cons_of_mem _ h1, h2⟩
          · rw [if_neg hseen] at hp
            rcases List.mem_cons.mp hp with he | ht
            · exact ⟨t0, x, xs, List.mem_cons_self _ _, he.symm⟩
            · obtain ⟨t, x2, xs2, h1, h2⟩ := ih _ ht
              exact ⟨t, x2, xs2, List.mem_cons_of_mem _ h1, h2⟩

theorem dedupLoop_complete (L : List (Nat × DriftSignal))
    (hinj : ∀ p q, p ∈ L → q ∈ L → p.1 = q.1 → p = q)
    (gs : List (String × List (Nat × DriftSignal))) (seen : List Nat)
    (hL : ∀ t2 grp q, (t2, grp) ∈ gs → q ∈ grp → q ∈ L)
    (t : String) (x : Nat × DriftSignal) (xs : List (Nat × DriftSignal))
    (hmem : (t, x :: xs) ∈ gs) :
    best1 x xs ∈ dedupLoop gs seen ∨ (best1 x xs).1 ∈ seen := by
  induction gs generalizing seen with
  | nil => cases hmem
  | cons hd rest ih =>
      obtain ⟨t0, grp⟩ := hd
      have hLrest : ∀ t2 g2 q, (t2, g2) ∈ rest → q ∈ g2 → q ∈ L :=
        fun t2 g2 q h1 h2 => hL t2 g2 q (List.mem_cons_of_mem _ h1) h2
      cases grp with
      | nil =>
          rcases List.mem_cons.mp hmem with he | ht
          · exact absurd he (by simp)
          · rcases ih seen hLrest ht with h | h
            · exact Or.inl (by simpa [dedupLoop] using h)
            · exact Or.inr h
      | cons y ys =>
          by_cases hseen : (best1 y ys).1 ∈ seen
          · rcases List.mem_cons.mp hmem with he | ht
            · injection he with h1 h2
              injection h2 with hx hxs
              subst hx; subst hxs
              exact Or.inr hseen
            · rcases ih seen hLrest ht with h | h
              · exact Or.inl (by simpa [dedupLoop, hseen] using h)
              · exact Or.inr h
          · rcases List.mem_cons.mp hmem with he | ht
            · injection he with h1 h2
              injection h2 with hx hxs
              subst hx; subst hxs
              exact Or.inl (by simp [dedupLoop, hseen])
            · rcases ih ((best1 y ys).1 :: seen) hLrest ht with h | h
              · exact Or.inl (by
                  simp only [dedupLoop, if_neg hseen]
                  exact List.mem_cons_of_mem _ h)
              · rcases List.mem_cons.mp h with hidx | hold
                · have hbL : best1 x xs ∈ L :=
                    hL t (x :: xs) (best1 x xs)
                      (List.mem_cons_of_mem _ ht) (best1_mem x xs)
                  have hbL2 : best1 y ys ∈ L :=
                    hL t0 (y :: ys) (best1 y ys)
                      (List.mem_cons_self _ _) (best1_mem y ys)
                  have heq := hinj _ _ hbL hbL2 hidx
                  exact Or.inl (by
                    simp only [dedupLoop, if_neg hseen]
                    rw [heq]
                    exact List.mem_cons_self _ _)
                · exact Or.inr hold

/-! Lemmas about the final filter and sort of the aggregator. -/

theorem mem_insertByDesc (key : α → ℚ) (a x : α) (l : List α) :
    x ∈ insertByDesc key a l ↔ x = a ∨ x ∈ l := by
  induction l with
  | nil => simp [insertByDesc]
  | cons y ys ih =>
      simp only [insertByDesc]
      by_cases h : key a > key y
      · rw [if_pos h]
        simp
      · rw [if_neg h]
        simp only [List.mem_cons, ih]
        tauto

theorem mem_sortByDesc (key : α → ℚ) (l : List α) (x : α) :
    x ∈ sortByDesc key l ↔ x ∈ l := by
  induction l with
  | nil => simp [sortByDesc]
  | cons y ys ih =>
      simp only [sortByDesc, mem_insertByDesc, List.mem_cons, ih]

theorem mem_aggregate (θ : ℚ) (l : List DriftSignal) (s : DriftSignal) :
    s ∈ aggregate θ l ↔
      ∃ p, p ∈ dedupPairs l ∧ p.2 = s ∧ θ ≤ s.drift_score ∧
        s.is_actionable = true := by
  unfold aggregate
  simp only [List.mem_map, mem_sortByDesc, List.mem_filter, Bool.and_eq_true,
    decide_eq_true_eq]
  constructor
  · rintro ⟨p, ⟨hp, hθ, hact⟩, rfl⟩
    exact ⟨p, hp, rfl, hθ, hact⟩
  · rintro ⟨p, hp, rfl, hθ, hact⟩
    exact ⟨p, ⟨hp, hθ, hact⟩, rfl⟩

theorem is_actionable_iff (s : DriftSignal) :
    s.is_actionable = true ↔ 3/5 ≤ s.drift_score := by
  unfold DriftSignal.is_actionable DriftSignal.severity
  constructor
  · intro hb
    split_ifs at hb with h1 h2 h3
    · linarith
    · linarith
    · exact absurd hb (by decide)
    · exact absurd hb (by decide)
  · intro hs
    by_cases h1 : s.drift_score ≥ 8/10
    · rw [if_pos h1]
      decide
    · rw [if_neg h1, if_pos (by linarith : s.drift_score ≥ 6/10)]
      decide

/-- Claim C1, corrected: the aggregator output is exactly the deduplicated
per-target-maximum signals whose score reaches the configured threshold and
which are actionable, where actionable means severity MODERATE or STRONG,
i.e. drift_score at least 0.6 — not "at least weak" (0.3) as the spec says. -/
theorem c1_aggregator_actionability (θ : ℚ) (l : List DriftSignal)
    (s : DriftSignal) :
    s ∈ aggregate θ l ↔
      (∃ p ∈ dedupPairs l, p.2 = s) ∧ θ ≤ s.drift_score ∧
        3/5 ≤ s.drift_score := by
  rw [mem_aggregate]
  constructor
  · rintro ⟨p, hp, rfl, hθ, hact⟩
    exact ⟨⟨p, hp, rfl⟩, hθ, (is_actionable_iff _).mp hact⟩
  · rintro ⟨⟨p, hp, hps⟩, hθ, hsc⟩
    exact ⟨p, hp, hps, hθ, hps ▸ (is_actionable_iff _).mpr (hps ▸ hsc)⟩

/-- Concrete instance of the corrected C1 characterization: a signal of score
0.8 above a threshold of 0.6 is in the aggregator output. -/
theorem c1_aggregator_actionability_witness :
    sigY ∈ aggregate (3/5) [sigY] ∧
      ((∃ p ∈ dedupPairs [sigY], p.2 = sigY) ∧ (3/5 : ℚ) ≤ sigY.drift_score ∧
        (3/5 : ℚ) ≤ sigY.drift_score) := by
  have h : (∃ p ∈ dedupPairs [sigY], p.2 = sigY) ∧
      (3/5 : ℚ) ≤ sigY.drift_score ∧ (3/5 : ℚ) ≤ sigY.drift_score :=
    ⟨⟨(0, sigY), by with_unfolding_all decide, rfl⟩,
      by norm_num [sigY], by norm_num [sigY]⟩
  exact ⟨(c1_aggregator_actionability (3/5) [sigY] sigY).mpr h, h⟩

/-- Counterexample to claim C1 as stated: with the threshold configured to
0.3, a deduplicated signal of score 0.5 (severity weak) passes both stated
conditions yet is dropped, because `is_actionable` requires severity
MODERATE or STRONG (score at least 0.6). -/
theorem c1_weak_signal_dropped : ¬ aggregateClaimC1 (3/10) [sigWeak] := by
  intro h
  have h2 := (h sigWeak).mpr
    ⟨⟨(0, sigWeak), by with_unfolding_all decide, rfl⟩,
      by norm_num [sigWeak], by with_unfolding_all decide⟩
  exact absurd h2 (by with_unfolding_all decide)

/-- Claim C3, corrected: for every covered target `t`, the deduplicated list
contains a signal covering `t` whose score dominates every input signal
covering `t`, and every aggregator-output signal covering `t` is dominated by
that score; but (contrary to the claim as stated) the output may contain more
than one signal covering `t` when signals list multiple targets. -/
theorem c3_aggregator_dominance (θ : ℚ) (l : List DriftSignal) (t : String)
    (hcov : ∃ s ∈ l, t ∈ s.affected_targets) :
    ∃ p ∈ dedupPairs l, t ∈ p.2.affected_targets ∧
      (∀ q ∈ l, t ∈ q.affected_targets → q.drift_score ≤ p.2.drift_score) ∧
      (∀ s ∈ aggregate θ l, t ∈ s.affected_targets →
        s.drift_score ≤ p.2.drift_score) := by
  obtain ⟨s0, hs0, ht0⟩ := hcov
  obtain ⟨i0, hi0⟩ := indexFrom_exists 0 l s0 hs0
  have hmem0 : (i0, s0) ∈ groupContent (aggGroups (indexFrom 0 l)) t :=
    (mem_aggGroups_content _ _ t).mpr ⟨hi0, ht0⟩
  have hne : groupContent (aggGroups (indexFrom 0 l)) t ≠ [] := by
    intro h
    rw [h] at hmem0
    cases hmem0
  have hpair : (t, groupContent (aggGroups (indexFrom 0 l)) t) ∈
      aggGroups (indexFrom 0 l) := content_pair_mem _ t hne
  have hL : ∀ t2 grp q, (t2, grp) ∈ aggGroups (indexFrom 0 l) → q ∈ grp →
      q ∈ indexFrom 0 l := by
    intro t2 grp q hgrp hq
    have hcont := mem_groups_content _ _ _ (aggGroups_nodup _) hgrp
    exact ((mem_aggGroups_content _ q t2).mp (hcont ▸ hq)).1
  cases hcxx : groupContent (aggGroups (indexFrom 0 l)) t with
  | nil => exact absurd hcxx hne
  | cons x xs =>
      have hb_grp : best1 x xs ∈ groupContent (aggGroups (indexFrom 0 l)) t := by
        rw [hcxx]
        exact best1_mem x xs
      have hb := (mem_aggGroups_content _ _ t).mp hb_grp
      have hb_dd : best1 x xs ∈ dedupPairs l := by
        rcases dedupLoop_complete (indexFrom 0 l) (indexFrom_fst_inj 0 l) _ []
            hL t x xs (hcxx ▸ hpair) with h | h
        · exact h
        · cases h
      refine ⟨best1 x xs, hb_dd, hb.2, ?_, ?_⟩
      · intro q hq hqt
        obtain ⟨i, hi⟩ := indexFrom_exists 0 l q hq
        have hqc : (i, q) ∈ groupContent (aggGroups (indexFrom 0 l)) t :=
          (mem_aggGroups_content _ _ t).mpr ⟨hi, hqt⟩
        rw [hcxx] at hqc
        exact best1_max x xs (i, q) hqc
      · intro s hs hst
        obtain ⟨p, hp, hps, _, _⟩ := (mem_aggregate θ l s).mp hs
        obtain ⟨t2, x2, xs2, hg2, hbp⟩ := dedupLoop_sound _ _ p hp
        have hpidx : p ∈ indexFrom 0 l :=
          hL t2 (x2 :: xs2) p hg2 (hbp ▸ best1_mem x2 xs2)
        have hpc : p ∈ groupContent (aggGroups (indexFrom 0 l)) t :=
          (mem_aggGroups_content _ _ t).mpr ⟨hpidx, by rw [hps]; exact hst⟩
        rw [hcxx] at hpc
        have := best1_max x xs p hpc
        rw [hps] at this
        exact this

/-- Concrete instance of the corrected C3 dominance for target y in the
two-signal overlap example. -/
theorem c3_aggregator_dominance_witness :
    ∃ p ∈ dedupPairs [sigXY, sigY], "y" ∈ p.2.affected_targets ∧
      (∀ q ∈ [sigXY, sigY], "y" ∈ q.affected_targets →
        q.drift_score ≤ p.2.drift_score) ∧
      (∀ s ∈ aggregate (3/5) [sigXY, sigY], "y" ∈ s.affected_targets →
        s.drift_score ≤ p.2.drift_score) :=
  c3_aggregator_dominance (3/5) [sigXY, sigY] "y"
    ⟨sigXY, by with_unfolding_all decide, by decide⟩

/-- Counterexample to claim C3 as stated: the input
`[⟨x,y⟩ scored 0.7, ⟨y⟩ scored 0.8]` produces an output in which two distinct
signals cover target y (the multi-target signal wins bucket x, the
single-target signal wins bucket y). -/
theorem c3_two_signals_cover_target :
    ¬ aggregateClaimC3 (3/5) [sigXY, sigY] := by
  intro h
  have h2 := (h "y" ⟨sigXY, by with_unfolding_all decide, by decide⟩).1
  exact absurd h2 (by with_unfolding_all decide)

/-! Lemmas for the snapshot polarity map (claim C7). -/

theorem lookupKey_cons (s q : String) (rest : List (String × String))
    (t : String) :
    lookupKey ((s, q) :: rest) t =
      if s = t then some q else lookupKey rest t := by
  unfold lookupKey
  by_cases h : s = t
  · rw [List.find?_cons_of_pos _ (by simpa using h), if_pos h]
    rfl
  · rw [List.find?_cons_of_neg _ (by simpa using h), if_neg h]

theorem lookupKey_mem (m : List (String × String)) (t p : String)
    (h : lookupKey m t = some p) : (t, p) ∈ m := by
  induction m with
  | nil => cases h
  | cons hd rest ih =>
      obtain ⟨s, q⟩ := hd
      rw [lookupKey_cons] at h
      by_cases hs : s = t
      · rw [if_pos hs] at h
        injection h with h
        subst hs; subst h
        exact List.mem_cons_self _ _
      · rw [if_neg hs] at h
        exact List.mem_cons_of_mem _ (ih h)

theorem behGroups_content (l : List BehaviorRecord)
    (g0 : List (String × List BehaviorRecord)) (t : String) :
    groupContent (l.foldl (fun g b => addToGroup g b.target b) g0) t =
      groupContent g0 t ++ l.filter (fun b => b.target = t) := by
  induction l generalizing g0 with
  | nil => simp
  | cons b rest ih =>
      simp only [List.foldl_cons]
      rw [ih, groupContent_addToGroup]
      by_cases h : t = b.target
      · rw [if_pos h, List.filter_cons_of_pos (by simpa using h.symm),
          List.append_assoc, List.singleton_append]
      · rw [if_neg h,
          List.filter_cons_of_neg (by simpa using fun hc => h hc.symm)]

theorem behGroups_nodup_aux (l : List BehaviorRecord)
    (g0 : List (String × List BehaviorRecord)) (h : (keysOf g0).Nodup) :
    (keysOf (l.foldl (fun g b => addToGroup g b.target b) g0)).Nodup := by
  induction l generalizing g0 with
  | nil => exact h
  | cons b rest ih =>
      simp only [List.foldl_cons]
      exact ih _ (keysOf_addToGroup_nodup g0 b.target b h)

theorem mostRecent_mem (x : BehaviorRecord) (xs : List BehaviorRecord) :
    mostRecent x xs ∈ x :: xs := by
  induction xs generalizing x with
  | nil => simp [mostRecent]
  | cons y ys ih =>
      simp only [mostRecent]
      by_cases h : x.last_seen_at ≥ (mostRecent y ys).last_seen_at
      · rw [if_pos h]
        exact List.mem_cons_self _ _
      · rw [if_neg h]
        exact List.mem_cons_of_mem _ (ih y)

theorem mostRecent_max (x : BehaviorRecord) (xs : List BehaviorRecord)
    (c : BehaviorRecord) (hc : c ∈ x :: xs) :
    c.last_seen_at ≤ (mostRecent x xs).last_seen_at := by
  induction xs generalizing x with
  | nil =>
      rcases List.mem_cons.mp hc with h | h
      · subst h; simp [mostRecent]
      · cases h
  | cons y ys ih =>
      simp only [mostRecent]
      by_cases h : x.last_seen_at ≥ (mostRecent y ys).last_seen_at
      · rw [if_pos h]
        rcases List.mem_cons.mp hc with he | ht
        · subst he; exact le_refl _
        · exact le_trans (ih y ht) h
      · rw [if_neg h]
        push_neg at h
        rcases List.mem_cons.mp hc with he | ht
        · subst he; exact le_of_lt h
        · exact ih y ht

theorem mostRecent_first (x : BehaviorRecord) (xs : List BehaviorRecord) :
    ∃ pre post, x :: xs = pre ++ mostRecent x xs :: post ∧
      ∀ c ∈ pre, c.last_seen_at < (mostRecent x xs).last_seen_at := by
  induction xs generalizing x with
  | nil => exact ⟨[], [], by simp [mostRecent], by simp⟩
  | cons y ys ih =>
      simp only [mostRecent]
      by_cases h : x.last_seen_at ≥ (mostRecent y ys).last_seen_at
      · rw [if_pos h]
        exact ⟨[], y :: ys, rfl, by simp⟩
      · rw [if_neg h]
        push_neg at h
        obtain ⟨pre, post, hsplit, hstrict⟩ := ih y
        refine ⟨x :: pre, post, by rw [hsplit, List.cons_append], ?_⟩
        intro c hc
        rcases List.mem_cons.mp hc with he | ht
        · subst he; exact h
        · exact hstrict c ht

/-- Claim C7, corrected: each target in the polarity map gets the polarity of
its relevant behavior with maximal `last_seen_at`; when several share that
maximum, the one occurring EARLIEST in the snapshot's behavior list wins
(Python `max` keeps the first maximum), not the lexicographically smallest
`behavior_id`. -/
theorem c7_polarity_most_recent_first_occurrence (snap : BehaviorSnapshot)
    (t p : String) (h : lookupKey (polarityByTarget snap) t = some p) :
    ∃ b ∈ snap.relevantBehaviors, b.target = t ∧ b.polarity = p ∧
      ∃ pre post,
        snap.relevantBehaviors.filter (fun c => c.target = t) =
          pre ++ b :: post ∧
        (∀ c ∈ pre, c.last_seen_at < b.last_seen_at) ∧
        (∀ c ∈ post, c.last_seen_at ≤ b.last_seen_at) := by
  have hpair := lookupKey_mem _ _ _ h
  unfold polarityByTarget at hpair
  rw [List.mem_filterMap] at hpair
  obtain ⟨a, ha, hfa⟩ := hpair
  obtain ⟨t2, grp⟩ := a
  cases grp with
  | nil => cases hfa
  | cons b0 bs =>
      simp only at hfa
      injection hfa with hfa
      injection hfa with ht2 hp
      rw [ht2] at ha
      have hnd : (keysOf (snap.relevantBehaviors.foldl
          (fun g b => addToGroup g b.target b) [])).Nodup :=
        behGroups_nodup_aux _ [] (by simp [keysOf])
      have hcontent := mem_groups_content _ _ _ hnd ha
      rw [behGroups_content] at hcontent
      simp only [groupContent_nil, List.nil_append] at hcontent
      obtain ⟨pre, post, hsplit, hstrict⟩ := mostRecent_first b0 bs
      have hmemflt : mostRecent b0 bs ∈
          snap.relevantBehaviors.filter (fun c => c.target = t) := by
        rw [← hcontent]
        exact mostRecent_mem b0 bs
      have hmem := List.mem_filter.mp hmemflt
      refine ⟨mostRecent b0 bs, hmem.1, by simpa using hmem.2, hp,
        pre, post, by rw [← hcontent]; exact hsplit, hstrict, ?_⟩
      intro c hc
      have : c ∈ b0 :: bs := by
        rw [hsplit]
        exact List.mem_append_right _ (List.mem_cons_of_mem _ hc)
      exact mostRecent_max b0 bs c this

/-- Concrete instance of the corrected C7: in the tie snapshot the map gives
POSITIVE (the first-listed behavior), with the promised ordering facts. -/
theorem c7_polarity_witness :
    ∃ b ∈ snapC7.relevantBehaviors, b.target = "t" ∧ b.polarity = "POSITIVE" ∧
      ∃ pre post,
        snapC7.relevantBehaviors.filter (fun c => c.target = "t") =
          pre ++ b :: post ∧
        (∀ c ∈ pre, c.last_seen_at < b.last_seen_at) ∧
        (∀ c ∈ post, c.last_seen_at ≤ b.last_seen_at) :=
  c7_polarity_most_recent_first_occurrence snapC7 "t" "POSITIVE"
    (by with_unfolding_all decide)

/-- Counterexample to claim C7 as stated: with two behaviors for target t
sharing `last_seen_at`, the map gives the polarity of the FIRST-listed
behavior (id "b", POSITIVE), not of the lexicographically smallest id
("a", NEGATIVE). -/
theorem c7_tie_not_lexicographic : ¬ polarityClaimC7 snapC7 := by
  intro h
  obtain ⟨b, hmem, htarget, hpol, hmax, htie⟩ :=
    h "t" "POSITIVE" (by with_unfolding_all decide)
  have hrel : snapC7.relevantBehaviors = [behPosB, behNegA] := by
    with_unfolding_all rfl
  rw [hrel] at hmem
  rcases List.mem_cons.mp hmem with hb | hb
  · have h2 := htie behNegA (by rw [hrel]; simp) (by decide)
      (by rw [hb]; decide)
    rw [hb] at h2
    exact absurd h2 (by with_unfolding_all decide)
  · rcases List.mem_cons.mp hb with hb | hb
    · rw [hb] at hpol
      exact absurd hpol (by decide)
    · cases hb

/-! Lemmas and theorems for the intensity-shift detector (claim C6). -/

/-- Claim C6, corrected: the detector emits for target t exactly when the
credibility delta is at least the threshold — in particular it DOES emit a
signal when the delta is exactly equal to `intensity_delta_threshold`
(matching the skip rule `delta < threshold` of section 4.6, not the boundary
sentence of section 8); below the threshold it emits nothing for t, and the
emitted signal carries `drift_score = delta` and
`confidence = min(ref, cur)`. -/
theorem c6_intensity_threshold_boundary (θ : ℚ) (ref cur : BehaviorSnapshot)
    (t : String) (h1 : t ∈ ref.getTargets) (h2 : t ∈ cur.getTargets) :
    (|cur.getAverageCredibility t - ref.getAverageCredibility t| < θ →
      ∀ s ∈ intensityDetect θ ref cur, t ∉ s.affected_targets) ∧
    (θ ≤ |cur.getAverageCredibility t - ref.getAverageCredibility t| →
      ∃ s ∈ intensityDetect θ ref cur, s.affected_targets = [t] ∧
        s.drift_score =
          |cur.getAverageCredibility t - ref.getAverageCredibility t| ∧
        s.confidence =
          min (ref.getAverageCredibility t) (cur.getAverageCredibility t)) := by
  constructor
  · intro hlt s hs hts
    unfold intensityDetect at hs
    rw [List.mem_filterMap] at hs
    obtain ⟨t2, ht2, hf⟩ := hs
    simp only at hf
    by_cases hc :
        |cur.getAverageCredibility t2 - ref.getAverageCredibility t2| < θ
    · rw [if_pos hc] at hf
      cases hf
    · rw [if_neg hc] at hf
      injection hf with hf
      rw [← hf] at hts
      simp only [List.mem_singleton] at hts
      subst hts
      exact hc hlt
  · intro hge
    refine ⟨⟨.intensityShift,
      |cur.getAverageCredibility t - ref.getAverageCredibility t|, [t],
      min (ref.getAverageCredibility t) (cur.getAverageCredibility t)⟩,
      ?_, rfl, rfl, rfl⟩
    unfold intensityDetect
    rw [List.mem_filterMap]
    refine ⟨t, ?_, ?_⟩
    · exact List.mem_filter.mpr ⟨h1, by simpa using h2⟩
    · simp only
      rw [if_neg (not_lt.mpr hge)]

/-- Concrete instance of the corrected C6: with threshold 0.2 and credibility
averages 0.25 and 0.5 the detector emits the delta-0.25 signal for vim. -/
theorem c6_intensity_witness :
    ∃ s ∈ intensityDetect (1/5) refSnapC6 curSnapC6,
      s.affected_targets = ["vim"] ∧
      s.drift_score =
        |curSnapC6.getAverageCredibility "vim" -
          refSnapC6.getAverageCredibility "vim"| ∧
      s.confidence =
        min (refSnapC6.getAverageCredibility "vim")
          (curSnapC6.getAverageCredibility "vim") :=
  (c6_intensity_threshold_boundary (1/5) refSnapC6 curSnapC6 "vim"
    (by with_unfolding_all decide) (by with_unfolding_all decide)).2
    (by with_unfolding_all decide)

/-- Counterexample to claim C6 as stated: at a delta of exactly 0.25 with the
threshold 0.25 the detector emits a signal for vim, while the claim says it
must emit none. -/
theorem c6_signal_at_exact_threshold :
    ¬ intensityClaimC6 (1/4) refSnapC6 curSnapC6 := by
  intro h
  have h2 := (h "vim" (by with_unfolding_all decide)
    (by with_unfolding_all decide)).1 (by with_unfolding_all decide)
  exact h2 ⟨.intensityShift, 1/4, ["vim"], 1/4⟩
    (by with_unfolding_all decide) (by decide)

/-! Theorems for the scan-enqueue gate (claim C2). -/

/-- Claim C2, corrected: the scan-enqueue gate refuses to enqueue when the
user already has a PENDING job — but only PENDING: `has_pending_job` counts
`status = PENDING` rows only, so a RUNNING job does not block a new enqueue
(see the counterexample), and two non-terminal jobs per user are reachable. -/
theorem c2_pending_job_blocks_enqueue (cfg : Config) (st : Store) (now : Int)
    (u trigger priority : String)
    (h : ∃ j ∈ st.scanJobs, j.user_id = u ∧ j.status = "PENDING") :
    maybeEnqueueScan cfg st now u trigger priority = st := by
  obtain ⟨j, hj, hju, hjs⟩ := h
  have hp : hasPendingJob st u = true := by
    unfold hasPendingJob
    rw [List.any_eq_true]
    exact ⟨j, hj, by simp [hju, hjs]⟩
  unfold maybeEnqueueScan
  rw [if_pos hp]

/-- Concrete instance of the corrected C2: a PENDING job blocks the enqueue. -/
theorem c2_pending_job_blocks_enqueue_witness :
    maybeEnqueueScan c2cfg c2stPending 100 "u1" "behavior.created" "NORMAL" =
      c2stPending :=
  c2_pending_job_blocks_enqueue c2cfg c2stPending 100 "u1" "behavior.created"
    "NORMAL" ⟨c2jobPending, by decide, by decide, by decide⟩

/-- Counterexample to claim C2 as stated: with one RUNNING job (and no
PENDING one) for user u1, the gate enqueues a second job, reaching a state
with two non-terminal jobs for the same user. -/
theorem c2_running_job_does_not_block :
    ¬ enqueueClaimC2 c2cfg c2st 100 "u1" "behavior.reinforced" "NORMAL" := by
  intro h
  have h2 := h ⟨c2job, by decide, by decide, Or.inr (by decide)⟩
  have h3 : (maybeEnqueueScan c2cfg c2st 100 "u1" "behavior.reinforced"
      "NORMAL").scanJobs.length = 2 := by
    with_unfolding_all decide
  rw [h2] at h3
  exact absurd h3 (by decide)

/-! Theorems for handler idempotency (claim C5). -/

theorem markProcessed_mem_self (st : Store) (eid : String) :
    eid ∈ (markProcessed st eid).processed := by
  unfold markProcessed
  exact List.mem_cons_self _ _

/-- Claim C5: the handler is idempotent per event id — a recorded id makes a
second delivery a no-op, and in all cases applying the same event twice
(at any two wall-clock instants) equals applying it once. -/
theorem c5_handler_idempotent (cfg : Config) (st : Store) (now1 now2 : Int)
    (eid : String) (e : EventData) :
    (eid ∈ st.processed → handleEvent cfg st now1 eid e = st) ∧
    handleEvent cfg (handleEvent cfg st now1 eid e) now2 eid e =
      handleEvent cfg st now1 eid e := by
  have hskip : ∀ (s2 : Store) (n : Int), eid ∈ s2.processed →
      handleEvent cfg s2 n eid e = s2 := by
    intro s2 n hm
    unfold handleEvent
    rw [if_pos hm]
  refine ⟨hskip st now1, ?_⟩
  by_cases h : eid ∈ st.processed
  · rw [hskip st now1 h, hskip st now2 h]
  · by_cases ht0 : e.event_type.getD "" = ""
    · have h1 : handleEvent cfg st now1 eid e = st := by
        unfold handleEvent
        rw [if_neg h, if_pos ht0]
      rw [h1]
      unfold handleEvent
      rw [if_neg h, if_pos ht0]
    · by_cases ht1 : e.event_type.getD "" = "behavior.created"
      · have h1 : handleEvent cfg st now1 eid e =
            markProcessed (onBehaviorCreated cfg st now1 e) eid := by
          unfold handleEvent
          rw [if_neg h, if_neg ht0, if_pos ht1]
        rw [h1, hskip _ now2 (markProcessed_mem_self _ _)]
      · by_cases ht2 : e.event_type.getD "" = "behavior.reinforced"
        · have h1 : handleEvent cfg st now1 eid e =
              markProcessed (onBehaviorReinforced cfg st now1 e) eid := by
            unfold handleEvent
            rw [if_neg h, if_neg ht0, if_neg ht1, if_pos ht2]
          rw [h1, hskip _ now2 (markProcessed_mem_self _ _)]
        · by_cases ht3 : e.event_type.getD "" = "behavior.superseded"
          · have h1 : handleEvent cfg st now1 eid e =
                markProcessed (onBehaviorSuperseded cfg st now1 e) eid := by
              unfold handleEvent
              rw [if_neg h, if_neg ht0, if_neg ht1, if_neg ht2, if_pos ht3]
            rw [h1, hskip _ now2 (markProcessed_mem_self _ _)]
          · by_cases ht4 : e.event_type.getD "" = "behavior.conflict.resolved"
            · have h1 : handleEvent cfg st now1 eid e =
                  markProcessed (onConflictResolved cfg st now1 e) eid := by
                unfold handleEvent
                rw [if_neg h, if_neg ht0, if_neg ht1, if_neg ht2, if_neg ht3,
                  if_pos ht4]
              rw [h1, hskip _ now2 (markProcessed_mem_self _ _)]
            · have h1 : handleEvent cfg st now1 eid e = st := by
                unfold handleEvent
                rw [if_neg h, if_neg ht0, if_neg ht1, if_neg ht2, if_neg ht3,
                  if_neg ht4]
              rw [h1]
              unfold handleEvent
              rw [if_neg h, if_neg ht0, if_neg ht1, if_neg ht2, if_neg ht3,
                if_neg ht4]

/-- Concrete instance of C5: the recorded id e1 makes a delivery a no-op, and
double application of a behavior.created event equals single application. -/
theorem c5_handler_idempotent_witness :
    (handleEvent c2cfg c5stSeen 7 "e1" c5ev = c5stSeen) ∧
    handleEvent c2cfg (handleEvent c2cfg c5stSeen 7 "e1" c5ev) 8 "e1" c5ev =
      handleEvent c2cfg c5stSeen 7 "e1" c5ev :=
  ⟨(c5_handler_idempotent c2cfg c5stSeen 7 8 "e1" c5ev).1 (by decide),
   (c5_handler_idempotent c2cfg c5stSeen 7 8 "e1" c5ev).2⟩

/-! Theorems for drift-event id regeneration (claim C10). -/

/-- Claim C10: `DriftEventRepository.insert` replaces an empty or
dash-containing id (every canonically formatted default uuid4 id contains
dashes) by `"drift_"` followed by 12 hex characters taken from the fresh
uuid4 hex material, writes the rewritten event, and returns the id it
persisted. -/
theorem c10_insert_regenerates_default_ids (st : Store) (ev : DriftEvent)
    (hex : List Char) (hlen : hex.length = 32)
    (hhex : ∀ c ∈ hex, isHexDigitChar c = true)
    (hid : ev.drift_event_id.data = [] ∨ '-' ∈ ev.drift_event_id.data) :
    ∃ newId,
      insertDriftEvent hex ev st =
        (newId, { st with driftEvents := st.driftEvents ++
          [{ ev with drift_event_id := newId }] }) ∧
      newId = String.mk ("drift_".data ++ hex.take 12) ∧
      newId.data.take 6 = "drift_".data ∧
      (newId.data.drop 6).length = 12 ∧
      (∀ c ∈ newId.data.drop 6, isHexDigitChar c = true) ∧
      '-' ∈ uuid4Canonical hex := by
  have hcond : (ev.drift_event_id.data.isEmpty ||
      ev.drift_event_id.data.contains '-') = true := by
    rcases hid with h | h
    · simp [h]
    · simp
      exact Or.inr h
  refine ⟨String.mk ("drift_".data ++ hex.take 12), ?_, rfl, ?_, ?_, ?_, ?_⟩
  · unfold insertDriftEvent
    rw [hcond]
    rfl
  · show ("drift_".data ++ hex.take 12).take 6 = "drift_".data
    have h6 : ("drift_".data).length = 6 := rfl
    rw [← h6, List.take_left]
  · show (("drift_".data ++ hex.take 12).drop 6).length = 12
    have h6 : ("drift_".data).length = 6 := rfl
    rw [← h6, List.drop_left, List.length_take, hlen]
    decide
  · intro c hc
    have : c ∈ hex.take 12 := by
      have h6 : ("drift_".data).length = 6 := rfl
      rw [show (String.mk ("drift_".data ++ hex.take 12)).data =
        "drift_".data ++ hex.take 12 from rfl, ← h6, List.drop_left] at hc
      exact hc
    exact hhex c (List.take_subset 12 hex this)
  · unfold uuid4Canonical
    exact List.mem_append_right _ (List.mem_cons_self _ _)

/-- Concrete instance of C10 with the zero uuid hex material. -/
theorem c10_insert_regenerates_default_ids_witness :
    ∃ newId,
      insertDriftEvent (List.replicate 32 '0') c10ev c2stPending =
        (newId, { c2stPending with driftEvents := c2stPending.driftEvents ++
          [{ c10ev with drift_event_id := newId }] }) ∧
      newId = String.mk ("drift_".data ++ (List.replicate 32 '0').take 12) ∧
      newId.data.take 6 = "drift_".data ∧
      (newId.data.drop 6).length = 12 ∧
      (∀ c ∈ newId.data.drop 6, isHexDigitChar c = true) ∧
      '-' ∈ uuid4Canonical (List.replicate 32 '0') :=
  c10_insert_regenerates_default_ids c2stPending c10ev (List.replicate 32 '0')
    (by decide) (by decide) (Or.inl (by decide))


/-! Theorems for the orchestrator cooldown (claim C4) and the cooldown HTTP
status (claim C8). -/

/-- Equation lemma: persisting `e :: es` first inserts `e` (advancing the
uuid counter), then persists `es`. -/
theorem persistEvents_cons (e : DriftEvent) (es : List DriftEvent)
    (st : Store) :
    persistEvents (e :: es) st =
      persistEvents es ((insertDriftEvent (hexOf32 st.uuidCounter) e
        { st with uuidCounter := st.uuidCounter + 1 }).2) := rfl

/-- `DriftEventRepository.insert` appends exactly one row, which keeps the
event's user id and detection time (only the id may be rewritten). -/
theorem insertDriftEvent_shape (hex : List Char) (ev : DriftEvent)
    (st : Store) :
    ∃ r, (insertDriftEvent hex ev st).2.driftEvents = st.driftEvents ++ [r] ∧
      r.user_id = ev.user_id ∧ r.detected_at = ev.detected_at :=
  ⟨_, rfl, rfl, rfl⟩

/-- Rows already persisted survive `_persist_events`. -/
theorem persistEvents_mono (events : List DriftEvent) (st : Store)
    (r : DriftEvent) (h : r ∈ st.driftEvents) :
    r ∈ (persistEvents events st).driftEvents := by
  induction events generalizing st with
  | nil => exact h
  | cons e es ih =>
      rw [persistEvents_cons]
      apply ih
      obtain ⟨r2, hr2, -, -⟩ := insertDriftEvent_shape (hexOf32 st.uuidCounter)
        e { st with uuidCounter := st.uuidCounter + 1 }
      rw [hr2]
      exact List.mem_append_left _ h

/-- Every event handed to `_persist_events` yields a persisted row carrying
the same user id and detection time. -/
theorem persistEvents_mem (events : List DriftEvent) (st : Store)
    (ev : DriftEvent) (h : ev ∈ events) :
    ∃ r ∈ (persistEvents events st).driftEvents,
      r.user_id = ev.user_id ∧ r.detected_at = ev.detected_at := by
  induction events generalizing st with
  | nil => cases h
  | cons e es ih =>
      rw [persistEvents_cons]
      rcases List.mem_cons.mp h with heq | h2
      · subst heq
        obtain ⟨r, hr, hu, hd⟩ := insertDriftEvent_shape (hexOf32 st.uuidCounter)
          ev { st with uuidCounter := st.uuidCounter + 1 }
        refine ⟨r, persistEvents_mono _ _ _ ?_, hu, hd⟩
        rw [hr]
        exact List.mem_append_right _ (by simp)
      · exact ih _ h2

/-- Folding the `MAX(detected_at)` step from a `some` accumulator never
loses the accumulated bound. -/
theorem latestFold_acc_le (u : String) (l : List DriftEvent) (a : Int) :
    ∃ m, l.foldl (latestFoldStep u) (some a) = some m ∧ a ≤ m := by
  induction l generalizing a with
  | nil => exact ⟨a, rfl, le_refl a⟩
  | cons e es ih =>
      rw [List.foldl_cons]
      by_cases he : e.user_id = u
      · rw [show latestFoldStep u (some a) e = some (max a e.detected_at) from
          by simp [latestFoldStep, he]]
        obtain ⟨m, hm, ha⟩ := ih (max a e.detected_at)
        exact ⟨m, hm, le_trans (le_max_left _ _) ha⟩
      · rw [show latestFoldStep u (some a) e = some a from by
          simp [latestFoldStep, he]]
        exact ih a

/-- A row of the user pushes `MAX(detected_at)` at least to its own
detection time, whatever the accumulator. -/
theorem latestFold_mem_ge (u : String) (l : List DriftEvent) (r : DriftEvent)
    (hr : r ∈ l) (hu : r.user_id = u) (acc : Option Int) :
    ∃ m, l.foldl (latestFoldStep u) acc = some m ∧ r.detected_at ≤ m := by
  induction l generalizing acc with
  | nil => cases hr
  | cons e es ih =>
      rw [List.foldl_cons]
      rcases List.mem_cons.mp hr with heq | h2
      · subst heq
        cases acc with
        | none =>
            rw [show latestFoldStep u none r = some r.detected_at from by
              simp [latestFoldStep, hu]]
            exact latestFold_acc_le u es r.detected_at
        | some b =>
            rw [show latestFoldStep u (some b) r =
                some (max b r.detected_at) from by simp [latestFoldStep, hu]]
            obtain ⟨m, hm, hb⟩ := latestFold_acc_le u es (max b r.detected_at)
            exact ⟨m, hm, le_trans (le_max_right _ _) hb⟩
      · exact ih h2 _

/-- A persisted drift event of the user forces
`get_latest_detection_time` to return a value at least its detection time. -/
theorem latestDetectionTime_ge (st : Store) (u : String) (r : DriftEvent)
    (hr : r ∈ st.driftEvents) (hu : r.user_id = u) :
    ∃ m, latestDetectionTime st u = some m ∧ r.detected_at ≤ m :=
  latestFold_mem_ge u st.driftEvents r hr hu none

/-- Every call to `build_reference_and_current` fails: the first
`build_snapshot` already raises (see `buildSnapshot`). -/
theorem buildReferenceAndCurrent_none (cfg : Config) (st : Store) (now : Int)
    (u : String) : buildReferenceAndCurrent cfg st now u = none := by
  unfold buildReferenceAndCurrent buildSnapshot getBehaviorsInWindowCall
  simp

/-- The orchestrator's overall behavior in the source: an empty trimmed user
id raises (`none`); every other call returns the empty event list and leaves
the store untouched, whether the pre-flight gates pass (the snapshot step
then fails and is caught) or not. -/
theorem detectDrift_eq (cfg : Config)
    (dets : List (BehaviorSnapshot → BehaviorSnapshot → List DriftSignal))
    (st : Store) (now : Int) (u : String) :
    detectDrift cfg dets st now u =
      if u.trim = "" then none else some ([], st) := by
  simp only [detectDrift, buildReferenceAndCurrent_none]
  by_cases hu : u.trim = ""
  · rw [if_pos hu, if_pos hu]
  · rw [if_neg hu, if_neg hu]
    split
    · rfl
    · rfl

/-- Claim C4: two successful `detect_drift` runs less than
`scan_cooldown_seconds` apart return at most one non-empty event list, and
whenever the latest persisted detection time for the user exists and is less
than `scan_cooldown_seconds` old, `detect_drift` returns the empty list
without running any detector (the result is the same for every detector
collection).  In the source the property holds a fortiori: every run that
passes the pre-flight gates fails at the snapshot step (`build_snapshot`
passes an `active_only` keyword `get_behaviors_in_window` does not accept;
the resulting `RuntimeError` is caught and turned into an empty result), so
every successful call returns the empty list. -/
theorem c4_orchestrator_cooldown :
    (∀ (cfg : Config)
       (dets : List (BehaviorSnapshot → BehaviorSnapshot → List DriftSignal))
       (st : Store) (t1 t2 : Int) (u : String) (evs1 : List DriftEvent)
       (st1 : Store) (evs2 : List DriftEvent) (st2 : Store),
       t1 ≤ t2 → t2 - t1 < cfg.scan_cooldown_seconds →
       detectDrift cfg dets st t1 u = some (evs1, st1) →
       detectDrift cfg dets st1 t2 u = some (evs2, st2) →
       evs1 = [] ∨ evs2 = []) ∧
    (∀ (cfg : Config)
       (dets : List (BehaviorSnapshot → BehaviorSnapshot → List DriftSignal))
       (st : Store) (now last : Int) (u : String),
       latestDetectionTime st u.trim = some last →
       now - last < cfg.scan_cooldown_seconds → u.trim ≠ "" →
       detectDrift cfg dets st now u = some ([], st)) := by
  constructor
  · intro cfg dets st t1 t2 u evs1 st1 evs2 st2 _ _ hd1 _
    rw [detectDrift_eq] at hd1
    by_cases hu : u.trim = ""
    · rw [if_pos hu] at hd1
      cases hd1
    · rw [if_neg hu] at hd1
      simp only [Option.some.injEq, Prod.mk.injEq] at hd1
      exact Or.inl hd1.1.symm
  · intro cfg dets st now last u _ _ hu
    rw [detectDrift_eq, if_neg hu]

/-- Concrete instance of C4: two runs 10 seconds apart on the empty store,
and a cooldown-gated run against a store holding a 10-second-old detection;
each returns the empty list. -/
theorem c4_orchestrator_cooldown_witness :
    ((1000000:Int) ≤ 1000010 ∧
      (1000010:Int) - 1000000 < c4cfg.scan_cooldown_seconds ∧
      detectDrift c4cfg [constDetector] c4stEmpty 1000000 "u1" =
        some ([], c4stEmpty) ∧
      detectDrift c4cfg [constDetector] c4stEmpty 1000010 "u1" =
        some ([], c4stEmpty) ∧
      (([] : List DriftEvent) = [] ∨ ([] : List DriftEvent) = [])) ∧
    (latestDetectionTime c8st ("u1".trim) = some 999990 ∧
      (1000000:Int) - 999990 < c4cfg.scan_cooldown_seconds ∧
      ("u1":String).trim ≠ "" ∧
      detectDrift c4cfg [constDetector] c8st 1000000 "u1" =
        some ([], c8st)) := by
  have hE1 : detectDrift c4cfg [constDetector] c4stEmpty 1000000 "u1" =
      some ([], c4stEmpty) := by with_unfolding_all decide
  have hE2 : detectDrift c4cfg [constDetector] c4stEmpty 1000010 "u1" =
      some ([], c4stEmpty) := by with_unfolding_all decide
  have hL : latestDetectionTime c8st ("u1".trim) = some 999990 := by
    rw [show ("u1":String).trim = "u1" from by with_unfolding_all decide]
    decide
  have hT : ("u1":String).trim ≠ "" := by with_unfolding_all decide
  refine ⟨⟨by decide, by decide, hE1, hE2, ?_⟩,
    ⟨hL, by decide, hT, ?_⟩⟩
  · exact c4_orchestrator_cooldown.1 c4cfg [constDetector] c4stEmpty 1000000
      1000010 "u1" [] c4stEmpty [] c4stEmpty (by decide) (by decide) hE1 hE2
  · exact c4_orchestrator_cooldown.2 c4cfg [constDetector] c8st 1000000
      999990 "u1" hL (by decide) hT

/-- Claim C8 (the spec's 429-on-cooldown): refuted by the code — with the
cooldown in effect for u1 (latest detection 10 seconds old, cooldown 3600),
`POST /detect/u1` answers 200 with an empty event list, not 429; the
orchestrator's cooldown refusal is indistinguishable from a successful
no-drift run at the HTTP layer. -/
theorem c8_route_cooldown_returns_200 :
    detectRoute c4cfg [constDetector] c8st 1000000 "u1" = (200, some []) ∧
    (200 : Int) ≠ 429 :=
  ⟨by with_unfolding_all decide, by decide⟩

end Drift
